import Mathlib

/-!
Verification development for the Ralph verification-loop hooks.

Shallow embedding of:
- `src/hooks/lib/cli_spawner.py` (circuit breaker, retry backoff, JSON output parsing)
- `src/hooks/ralph-stop.py` (the verification loop controller `main`,
  `run_verification`, `ensure_ralph_session_id`, `spawn_isolated_iteration`)
- `src/hooks/lib/task_protocol.py` (task document render/parse round trip)

Python floats that only carry configuration magnitudes (delays, budgets,
timestamps) are modelled as rationals; machine time (`time.time()`) is passed
explicitly as a rational parameter.  Randomness (`random.uniform`) and process
outcomes (subprocess results) are passed as explicit parameters.
-/
/- ========================================================================
   Circuit breaker (src/hooks/lib/cli_spawner.py, class CircuitBreaker)
   ======================================================================== -/
/-- The three circuit states (`CircuitBreakerState` in cli_spawner.py). -/
inductive CBState
  | closed
  | opened
  | halfOpen
deriving DecidableEq, Repr

/-- `CircuitBreakerConfig` dataclass. `recovery_timeout_seconds` is a Python
float, modelled as a rational. -/
structure CircuitBreakerConfig where
  failure_threshold : Nat
  recovery_timeout_seconds : ℚ
  half_open_max_calls : Nat
deriving DecidableEq, Repr

/-- `CircuitBreaker` dataclass state: the `_state`, `_failure_count`,
`_last_failure_time`, `_half_open_calls` fields. -/
structure CircuitBreaker where
  config : CircuitBreakerConfig
  stateRaw : CBState
  failure_count : Nat
  last_failure_time : ℚ
  half_open_calls : Nat
deriving DecidableEq, Repr

/-- The `state` property: reads the current state, lazily transitioning
OPEN → HALF_OPEN when the recovery timeout has passed since the last failure.
`now` is the value of `time.time()`.  Returns the answer and the (possibly
mutated) breaker. -/
def CircuitBreaker.state (cb : CircuitBreaker) (now : ℚ) : CBState × CircuitBreaker :=
  if cb.stateRaw = CBState.opened ∧
      now - cb.last_failure_time ≥ cb.config.recovery_timeout_seconds then
    (CBState.halfOpen, { cb with stateRaw := CBState.halfOpen, half_open_calls := 0 })
  else
    (cb.stateRaw, cb)

/-- `CircuitBreaker.can_execute`: checks whether a call is allowed, after
triggering the lazy state transition. -/
def CircuitBreaker.can_execute (cb : CircuitBreaker) (now : ℚ) : Bool × CircuitBreaker :=
  let p := cb.state now
  match p.1 with
  | CBState.closed => (true, p.2)
  | CBState.halfOpen => (decide (p.2.half_open_calls < p.2.config.half_open_max_calls), p.2)
  | CBState.opened => (false, p.2)

/-- `CircuitBreaker.record_success`. -/
def CircuitBreaker.record_success (cb : CircuitBreaker) : CircuitBreaker :=
  if cb.stateRaw = CBState.halfOpen then
    let cb1 := { cb with half_open_calls := cb.half_open_calls + 1 }
    if cb1.half_open_calls ≥ cb1.config.half_open_max_calls then
      { cb1 with stateRaw := CBState.closed, failure_count := 0 }
    else
      cb1
  else if cb.stateRaw = CBState.closed then
    { cb with failure_count := 0 }
  else
    cb

/-- `CircuitBreaker.record_failure`; `now` is `time.time()`. -/
def CircuitBreaker.record_failure (cb : CircuitBreaker) (now : ℚ) : CircuitBreaker :=
  let cb1 := { cb with failure_count := cb.failure_count + 1, last_failure_time := now }
  if cb.stateRaw = CBState.halfOpen then
    { cb1 with stateRaw := CBState.opened }
  else if cb1.failure_count ≥ cb1.config.failure_threshold then
    { cb1 with stateRaw := CBState.opened }
  else
    cb1

/- ========================================================================
   Retry policy (src/hooks/lib/cli_spawner.py, RetryConfig and
   _calculate_backoff_delay, spawn_claude_print_async retry loop)
   ======================================================================== -/
/-- `RetryConfig` dataclass. Float fields modelled as rationals. -/
structure RetryConfig where
  max_retries : Nat
  base_delay_seconds : ℚ
  max_delay_seconds : ℚ
  exponential_base : ℚ
  jitter : Bool
deriving DecidableEq, Repr

/-- Default `RetryConfig()` values. -/
def defaultRetryConfig : RetryConfig :=
  { max_retries := 3
    base_delay_seconds := 1
    max_delay_seconds := 30
    exponential_base := 2
    jitter := true }

/-- The un-jittered part of `_calculate_backoff_delay`:
`delay = base * exp ** attempt; delay = min(delay, cap)`. -/
def backoffRawDelay (attempt : Nat) (config : RetryConfig) : ℚ :=
  min (config.base_delay_seconds * config.exponential_base ^ attempt) config.max_delay_seconds

/-- `_calculate_backoff_delay`.  The call `random.uniform(-jitter_range,
jitter_range)` with `jitter_range = delay * 0.25` is modelled by the explicit
draw `j`; theorems about it hypothesise `|j| ≤ delay / 4`.  Returns
`max(0, delay [+ j])`. -/
def calculate_backoff_delay (attempt : Nat) (config : RetryConfig) (j : ℚ) : ℚ :=
  let delay := backoffRawDelay attempt config
  let delay2 := if config.jitter then delay + j else delay
  max 0 delay2

/-- Per-attempt outcome of the body of the retry loop in
`spawn_claude_print_async` (working with `use_circuit_breaker = False`, so the
circuit-breaker fast-fail return is not taken; the breaker can only remove
attempts, never add them). -/
inductive AttemptOutcome
  | completed (success : Bool)
  | timedOut
  | fileNotFound
  | raised
deriving DecidableEq, Repr

/-- Count of spawn attempts performed by the loop
`for attempt in range(max_retries + 1)` of `spawn_claude_print_async`,
starting at attempt index `attempt` with `fuel` loop iterations remaining.
Mirrors the source's early returns: a successful attempt and a
`FileNotFoundError` return immediately; failure, timeout and generic
exceptions return once `attempt >= max_retries` and otherwise sleep and
retry. -/
def spawnLoopAttempts (outcomes : Nat → AttemptOutcome) (max_retries : Nat) :
    Nat → Nat → Nat
  | 0, _ => 0
  | fuel + 1, attempt =>
    match outcomes attempt with
    | AttemptOutcome.completed true => 1
    | AttemptOutcome.fileNotFound => 1
    | AttemptOutcome.completed false =>
      if attempt ≥ max_retries then 1
      else 1 + spawnLoopAttempts outcomes max_retries fuel (attempt + 1)
    | AttemptOutcome.timedOut =>
      if attempt ≥ max_retries then 1
      else 1 + spawnLoopAttempts outcomes max_retries fuel (attempt + 1)
    | AttemptOutcome.raised =>
      if attempt ≥ max_retries then 1
      else 1 + spawnLoopAttempts outcomes max_retries fuel (attempt + 1)

/-- Total number of spawn attempts made by one `spawn_claude_print_async`
call whose successive attempt outcomes are given by `outcomes`. -/
def spawnAttemptCount (outcomes : Nat → AttemptOutcome) (max_retries : Nat) : Nat :=
  spawnLoopAttempts outcomes max_retries (max_retries + 1) 0

/- ========================================================================
   Structured (JSON) output parsing
   (src/hooks/lib/cli_spawner.py, _parse_json_output)
   ======================================================================== -/
/-- Python values produced by `json.loads`: the JSON data model.  Objects are
modelled as association lists with distinct keys (Python dicts). -/
inductive PyJson
  | null
  | bool (b : Bool)
  | num (q : ℚ)
  | str (s : String)
  | arr (elems : List PyJson)
  | obj (fields : List (String × PyJson))

/-- Python `dict.get(key, default)` on a JSON object. -/
def pyDictGet (fields : List (String × PyJson)) (key : String) (dflt : PyJson) : PyJson :=
  match fields.lookup key with
  | some v => v
  | none => dflt

/-- The one uncaught exception class relevant to `_parse_json_output`:
calling `.get` on a Python value that is not a dict raises `AttributeError`,
which is NOT in the function's `except (json.JSONDecodeError, TypeError,
KeyError)` clause. -/
inductive PyExc
  | attributeError
deriving DecidableEq, Repr

/-- `SpawnStats` dataclass as constructed by `_parse_json_output`: the
dataclass performs no validation, so each field holds whatever JSON value
`usage.get`/`data.get` produced. -/
structure SpawnStatsVal where
  input_tokens : PyJson
  output_tokens : PyJson
  cache_read_tokens : PyJson
  cache_creation_tokens : PyJson
  total_cost_usd : PyJson
  duration_ms : PyJson
  num_turns : PyJson

/-- `_parse_json_output(raw_output)`.  The outcome of `json.loads(raw_output)`
is passed explicitly as `loaded` (`none` = `json.JSONDecodeError`, which the
`except` clause catches, returning `(raw_output, None)`).  When the loaded
value is not a dict, `data.get("result", ...)` raises `AttributeError`; when
`data["usage"]` exists but is not a dict, `usage.get(...)` raises
`AttributeError`.  Neither is caught, so the exception escapes
(`Except.error`). -/
def parse_json_output (loaded : Option PyJson) (raw_output : String) :
    Except PyExc (PyJson × Option SpawnStatsVal) :=
  match loaded with
  | none => Except.ok (PyJson.str raw_output, none)
  | some data =>
    match data with
    | PyJson.obj fields =>
      let result_text := pyDictGet fields "result" (PyJson.str raw_output)
      match pyDictGet fields "usage" (PyJson.obj []) with
      | PyJson.obj usage =>
        Except.ok (result_text, some
          { input_tokens := pyDictGet usage "input_tokens" (PyJson.num 0)
            output_tokens := pyDictGet usage "output_tokens" (PyJson.num 0)
            cache_read_tokens := pyDictGet usage "cache_read_input_tokens" (PyJson.num 0)
            cache_creation_tokens := pyDictGet usage "cache_creation_input_tokens" (PyJson.num 0)
            total_cost_usd := pyDictGet fields "total_cost_usd" (PyJson.num 0)
            duration_ms := pyDictGet fields "duration_ms" (PyJson.num 0)
            num_turns := pyDictGet fields "num_turns" (PyJson.num 0) })
      | _ => Except.error PyExc.attributeError
    | _ => Except.error PyExc.attributeError

/- ========================================================================
   Verification command environment (src/hooks/ralph-stop.py,
   run_verification, lines 130-153)
   ======================================================================== -/
/-- The six environment variables `run_verification` forwards to the spawned
shell: the dict comprehension keeps `k in ("PATH", "HOME", "USER", "SHELL",
"NODE_ENV", "CI")`. -/
def allowedVerificationEnvKeys : List String :=
  ["PATH", "HOME", "USER", "SHELL", "NODE_ENV", "CI"]

/-- The environment dict built by `run_verification`: an environment is a
partial map from variable names to values; every key outside the allow-list
is dropped. -/
def filterVerificationEnv (env : String → Option String) : String → Option String :=
  fun k => if k ∈ allowedVerificationEnvKeys then env k else none

/-- The full argument tuple `run_verification` hands to `subprocess.run`:
`["sh", "-c", command]`, the working directory, the timeout and the filtered
environment. -/
structure VerificationInvocation where
  argv : List String
  cwd : String
  timeout : Nat
  env : String → Option String

/-- Builds the `subprocess.run` invocation of `run_verification` (the `cwd`
parameter is the already-resolved `working_dir or os.getcwd()`). -/
def mkVerificationInvocation (command : String) (timeout : Nat) (cwd : String)
    (env : String → Option String) : VerificationInvocation :=
  { argv := ["sh", "-c", command]
    cwd := cwd
    timeout := timeout
    env := filterVerificationEnv env }

/- ========================================================================
   Verification loop controller (src/hooks/ralph-stop.py)
   ======================================================================== -/
/-- The verification result dict built by `run_verification`.  `exitCode` is
the subprocess return code (-1 on timeout or exception); stdout/stderr are the
(possibly tail-truncated) captured streams. -/
structure VerifyRunResult where
  passed : Bool
  exitCode : Int
  stdout : String
  stderr : String
  timedOut : Bool
deriving DecidableEq, Repr

/-- The `config` sub-dict of `verify-active.json`.  Fields are `Option`
because the controller reads each one with `.get` and a default. -/
structure VerifyConfig where
  command : Option String
  timeout : Option Nat
  maxIterations : Option Nat
  workingDir : Option String
  originalGoal : Option String
deriving DecidableEq, Repr

/-- The `state` sub-dict of `verify-active.json`. -/
structure VerifyLoopState where
  iteration : Option Nat
  lastResult : Option VerifyRunResult
  sessionId : Option String
deriving DecidableEq, Repr

/-- The whole `verify-active.json` document.  `topSessionId` models the
top-level `verify_state.get("sessionId")` fallback read by
`ensure_ralph_session_id`. -/
structure VerifyStateFile where
  config : VerifyConfig
  state : VerifyLoopState
  topSessionId : Option String
deriving DecidableEq, Repr

/-- Python `a or b` on optional strings: `a` wins unless it is missing or
empty (falsy). -/
def pyOrOptStr (a b : Option String) : Option String :=
  if a.getD "" = "" then b else a

/-- Python `a or b or c` on plain strings (empty = falsy). -/
def pyOrStr (a b : String) : String :=
  if a = "" then b else a

/-- The fresh identifier `f"ralph-{uuid.uuid4().hex[:8]}"`; the uuid draw is
the explicit parameter `u`. -/
def genSessionId (u : String) : String := "ralph-" ++ u

/-- `ensure_ralph_session_id(verify_state)`: reads
`state.get("sessionId") or verify_state.get("sessionId")` and generates a
fresh id when that is missing or empty.  The generated id is exported to
`os.environ` (process-local, not persisted to the state file). -/
def ensure_ralph_session_id (vs : VerifyStateFile) (freshId : String) : String :=
  match pyOrOptStr vs.state.sessionId vs.topSessionId with
  | some s => if s = "" then freshId else s
  | none => freshId

/-- The state-file update performed by `main` after running verification
(lines 419-423): `state["iteration"] = iteration; state["lastResult"] =
result; save_verify_state(...)`.  Note it does not write `sessionId`. -/
def saveAfterVerify (vs : VerifyStateFile) (iteration : Nat) (result : VerifyRunResult) :
    VerifyStateFile :=
  { vs with state := { vs.state with iteration := some iteration, lastResult := some result } }

/-- `format_error_feedback(result, verify_state)` (in-context failure
message), called after the state save, so `state["iteration"] + 1` is already
the incremented counter plus one. -/
def format_error_feedback (result : VerifyRunResult) (vs : VerifyStateFile) : String :=
  let iteration := vs.state.iteration.getD 0 + 1
  let max_iterations := vs.config.maxIterations.getD 10
  let error_output := pyOrStr (pyOrStr result.stderr result.stdout) "No output captured"
  String.intercalate "\n"
    ([ "## Shell Verification FAILED (Iteration " ++ toString iteration ++ "/" ++
         toString max_iterations ++ ")"
     , ""
     , "**Command:** `" ++ vs.config.command.getD "" ++ "`"
     , "**Exit Code:** " ++ toString result.exitCode ]
     ++ (if result.timedOut then ["**Status:** Timed out"] else [])
     ++ [ ""
        , "### Error Output"
        , "```"
        , error_output.take 2000
        , "```"
        , ""
        , "Please fix the issues and continue working. Verification will run again when you finish." ])

/-- `SpawnStats` as consumed by ralph-stop (token counts, cost, duration). -/
structure SpawnStatsR where
  input_tokens : Int
  output_tokens : Int
  cache_read_tokens : Int
  cache_creation_tokens : Int
  total_cost_usd : ℚ
  duration_ms : Int
  num_turns : Int
deriving DecidableEq, Repr

/-- `SpawnResult` dataclass as consumed by ralph-stop. -/
structure CliSpawnResult where
  success : Bool
  output : String
  error : Option String
  exit_code : Int
  timed_out : Bool
  retries_used : Nat
  stats : Option SpawnStatsR
deriving DecidableEq, Repr

/-- Ralph context-isolation configuration (load_context_isolation_config). -/
structure IsolationConfig where
  enabled : Bool
  inContextThreshold : Nat
  maxBudgetPerSpawn : ℚ
  spawnTimeout : Nat
  permissionMode : String
deriving DecidableEq, Repr

/-- The dict returned by `spawn_isolated_iteration` (its last two return
statements, lines 350-365): `passed` comes exclusively from the independent
`run_verification` re-run performed after the spawned process completed;
the spawned process result only contributes display text and stats. -/
structure SpawnIterOutcome where
  passed : Bool
  output : String
  stats : Option SpawnStatsR
  spawn_output : Option String
deriving DecidableEq, Repr

/-- The tail of `spawn_isolated_iteration` (lines 342-365): after the spawned
execution, re-run verification (`reverify` is that independent run's result)
and report pass/fail from it alone. -/
def spawnIsolatedOutcome (spawnRes : CliSpawnResult) (reverify : VerifyRunResult) :
    SpawnIterOutcome :=
  if reverify.passed then
    { passed := true
      output := "Spawned instance fixed the issue.\n\nVerification output:\n" ++ reverify.stdout
      stats := spawnRes.stats
      spawn_output := if spawnRes.output = "" then none else some (spawnRes.output.take 1000) }
  else
    let error_output := pyOrStr (pyOrStr reverify.stderr reverify.stdout) "No output"
    { passed := false
      output := "Spawned instance attempted fix but verification still fails.\n\nSpawned output:\n"
        ++ spawnRes.output.take 500 ++ "\n\nVerification error:\n" ++ error_output
      stats := spawnRes.stats
      spawn_output := if spawnRes.output = "" then none else some (spawnRes.output.take 1000) }

/-- The decision `main` prints for the Stop hook: allow termination (with an
optional system message) or block it with a reason. -/
inductive HookDecision
  | allowStop (systemMessage : Option String)
  | block (reason : String)
deriving DecidableEq, Repr

/-- `true` exactly on the allow-termination decisions. -/
def HookDecision.isAllow : HookDecision → Bool
  | HookDecision.allowStop _ => true
  | HookDecision.block _ => false

/-- Observable outcome of one `main` invocation: the decision printed, the
verification state file content afterwards (`none` = deleted or absent), the
number of times the verification command was executed, whether a CLI process
spawn was attempted, and how many session-ledger (tracker) writes happened. -/
structure StepOut where
  decision : HookDecision
  stateFile : Option VerifyStateFile
  verifyRuns : Nat
  spawnAttempted : Bool
  ledgerWrites : Nat
  observedSessionId : Option String
deriving DecidableEq, Repr

/-- The `[Verify] Max iterations (N) reached. Stopping.` system message. -/
def maxIterationsMessage (max_iterations : Nat) : String :=
  "[Verify] Max iterations (" ++ toString max_iterations ++ ") reached. Stopping."

/-- The `[Verify] PASSED on iteration N!` system message. -/
def passedMessage (iteration : Nat) : String :=
  "[Verify] PASSED on iteration " ++ toString iteration ++ "!"

/-- The isolated-pass system message of lines 473-480.  The embedded
stats summary uses Python float f-string formatting (`$ {cost:.4f}` etc.),
which has no rational counterpart; the message text around it is kept and the
numeric rendering is abstracted by `toString` on the rational. -/
def isolatedPassMessage (iteration : Nat) (command : String) (outcome : SpawnIterOutcome) :
    String :=
  "## ✅ Verification PASSED (Iteration " ++ toString iteration ++ ")\n\n" ++
  "**Method:** Isolated execution (fresh context)\n**Command:** `" ++ command ++ "`\n" ++
  (match outcome.stats with
   | some st => "\n**Spawn Stats:** cost " ++ toString st.total_cost_usd
   | none => "") ++
  "\n\n### Result\n" ++ outcome.output.take 800

/-- The isolated-failure block reason of lines 508-517 (same float-format
abstraction for the cost line). -/
def isolatedFailMessage (iteration max_iterations : Nat) (outcome : SpawnIterOutcome) :
    String :=
  "## ❌ Isolated Execution FAILED (Iteration " ++ toString iteration ++ "/" ++
  toString max_iterations ++ ")\n\nThe context-isolated Claude instance could not fix the issue." ++
  (match outcome.stats with
   | some st => "\n**Spawn cost:** " ++ toString st.total_cost_usd
   | none => "") ++
  "\n\n**Output from isolated instance:**\n```\n" ++ outcome.output.take 2000 ++
  "\n```\n\nPlease review the isolated attempt and try a different approach."

/-- Ledger writes performed by `spawn_isolated_iteration` before spawning:
`set_goal` when the tracker has no goal yet, plus one `record_iteration`. -/
def spawnLedgerWrites (trackerHasGoal : Bool) : Nat :=
  (if trackerHasGoal then 0 else 1) + 1

/-- One invocation of `main()` in ralph-stop.py, as a pure transition.

Explicit parameters stand for the ambient world:
- `stopHookActive`: truthiness of `hook_input.get("stop_hook_active")`;
- `vsOpt`: `load_verify_state()` (`none` = missing/unreadable file);
- `iso`: `load_context_isolation_config()`;
- `ralphSpawned`: truthiness of `os.environ.get("RALPH_SPAWNED")`;
- `freshU`: the uuid hex draw for a generated session id;
- `verifyResult`: outcome of the `run_verification` call in `main`;
- `trackerHasGoal`: whether the session tracker already has a goal;
- `spawnRaises`: whether `spawn_isolated_iteration` raises
  (`ImportError`/`Exception` handlers, lines 534-554), with
  `raisePartialWrites` ledger writes already performed at the raise point;
- `spawnRes`: the `SpawnResult` from `spawn_claude_print`;
- `reverify`: the independent `run_verification` re-run inside
  `spawn_isolated_iteration`. -/
def mainStep (stopHookActive : Bool) (vsOpt : Option VerifyStateFile) (iso : IsolationConfig)
    (ralphSpawned : Bool) (freshU : String) (verifyResult : VerifyRunResult)
    (trackerHasGoal : Bool) (spawnRaises : Bool) (raisePartialWrites : Nat)
    (spawnRes : CliSpawnResult) (reverify : VerifyRunResult) : StepOut :=
  if stopHookActive then
    -- loop-prevention guard (lines 377-378): exit immediately, no output,
    -- nothing touched
    { decision := HookDecision.allowStop none
      stateFile := vsOpt
      verifyRuns := 0
      spawnAttempted := false
      ledgerWrites := 0
      observedSessionId := none }
  else
    match vsOpt with
    | none =>
      -- no active verification: allow stop (lines 383-385)
      { decision := HookDecision.allowStop none
        stateFile := none
        verifyRuns := 0
        spawnAttempted := false
        ledgerWrites := 0
        observedSessionId := none }
    | some vs =>
      let session_id := ensure_ralph_session_id vs (genSessionId freshU)
      let iteration := vs.state.iteration.getD 0 + 1
      let max_iterations := vs.config.maxIterations.getD 10
      if iteration > max_iterations then
        -- exhaustion check (lines 398-406): clear state, allow stop, and the
        -- verification command is never executed on this invocation
        { decision := HookDecision.allowStop (some (maxIterationsMessage max_iterations))
          stateFile := none
          verifyRuns := 0
          spawnAttempted := false
          ledgerWrites := 0
          observedSessionId := some session_id }
      else
        let result := verifyResult
        let vs1 := saveAfterVerify vs iteration result
        if result.passed then
          { decision := HookDecision.allowStop (some (passedMessage iteration))
            stateFile := none
            verifyRuns := 1
            spawnAttempted := false
            ledgerWrites := 0
            observedSessionId := some session_id }
        else if iso.enabled ∧ iteration > iso.inContextThreshold then
          if ralphSpawned then
            -- already inside a spawned instance: stay in-context (lines 438-446)
            { decision := HookDecision.block (format_error_feedback result vs1)
              stateFile := some vs1
              verifyRuns := 1
              spawnAttempted := false
              ledgerWrites := 0
              observedSessionId := some session_id }
          else if spawnRaises then
            -- spawn path raised: fall back to in-context feedback (534-554)
            { decision := HookDecision.block (format_error_feedback result vs1)
              stateFile := some vs1
              verifyRuns := 1
              spawnAttempted := false
              ledgerWrites := raisePartialWrites
              observedSessionId := some session_id }
          else
            let outcome := spawnIsolatedOutcome spawnRes reverify
            if outcome.passed then
              { decision := HookDecision.allowStop
                  (some (isolatedPassMessage iteration (vs.config.command.getD "unknown") outcome))
                stateFile := none
                verifyRuns := 2
                spawnAttempted := true
                ledgerWrites := spawnLedgerWrites trackerHasGoal
                observedSessionId := some session_id }
            else
              -- count the spawn as an extra iteration (lines 495-499)
              let vs2 := { vs1 with state := { vs1.state with iteration := some (iteration + 1) } }
              { decision := HookDecision.block
                  (isolatedFailMessage iteration max_iterations outcome)
                stateFile := some vs2
                verifyRuns := 2
                spawnAttempted := true
                ledgerWrites := spawnLedgerWrites trackerHasGoal
                observedSessionId := some session_id }
        else
          { decision := HookDecision.block (format_error_feedback result vs1)
            stateFile := some vs1
            verifyRuns := 1
            spawnAttempted := false
            ledgerWrites := 0
            observedSessionId := some session_id }

/-- A dummy spawn result for invocations whose control flow never reaches the
spawn path (the in-context trace below). -/
def dummySpawnRes : CliSpawnResult :=
  { success := false, output := "", error := none, exit_code := -1
    timed_out := false, retries_used := 0, stats := none }

/-- One in-context invocation: `mainStep` with the spawn-path parameters held
at irrelevant defaults (the in-context path never reads them). -/
def inContextStep (iso : IsolationConfig) (u : String) (r : VerifyRunResult)
    (vsOpt : Option VerifyStateFile) : StepOut :=
  mainStep false vsOpt iso false u r false false 0 dummySpawnRes r

/-- The chain of state files produced by repeatedly invoking the controller
with verification outcome `r` each time. -/
def inContextTrace (iso : IsolationConfig) (u : String) (r : VerifyRunResult)
    (vs0 : Option VerifyStateFile) : Nat → Option VerifyStateFile
  | 0 => vs0
  | k + 1 => (inContextStep iso u r (inContextTrace iso u r vs0 k)).stateFile

/-- Total number of verification-command executions across the first `n`
invocations of the in-context loop. -/
def inContextTotalRuns (iso : IsolationConfig) (u : String) (r : VerifyRunResult)
    (vs0 : Option VerifyStateFile) : Nat → Nat
  | 0 => 0
  | k + 1 => inContextTotalRuns iso u r vs0 k +
      (inContextStep iso u r (inContextTrace iso u r vs0 k)).verifyRuns

/- ========================================================================
   Witness fixtures (concrete inputs used by witness theorems)
   ======================================================================== -/
/-- A failing verification result. -/
def rFailFix : VerifyRunResult :=
  { passed := false, exitCode := 1, stdout := "", stderr := "test failed", timedOut := false }

/-- A passing verification result. -/
def rPassFix : VerifyRunResult :=
  { passed := true, exitCode := 0, stdout := "ok", stderr := "", timedOut := false }

/-- Isolation disabled (pure in-context loop). -/
def isoOff : IsolationConfig :=
  { enabled := false, inContextThreshold := 3, maxBudgetPerSpawn := 1, spawnTimeout := 300
    permissionMode := "delegate" }

/-- The default isolation configuration of `load_context_isolation_config`. -/
def isoOn : IsolationConfig :=
  { enabled := true, inContextThreshold := 3, maxBudgetPerSpawn := 1, spawnTimeout := 300
    permissionMode := "delegate" }

/-- A spawned-CLI result that reports success. -/
def spawnOkFix : CliSpawnResult :=
  { success := true, output := "I fixed it. PASS", error := none, exit_code := 0
    timed_out := false, retries_used := 0, stats := none }

/-- A verification state file at iteration 4 of 10 (deep enough to escalate),
with no session id recorded. -/
def vsEscalating : VerifyStateFile :=
  { config := { command := some "npm test", timeout := some 300000, maxIterations := some 10
                workingDir := none, originalGoal := some "make tests pass" }
    state := { iteration := some 4, lastResult := none, sessionId := none }
    topSessionId := none }

/-- A breaker one failure away from its threshold, used by the C6 witness. -/
def cbNearThreshold : CircuitBreaker :=
  { config := { failure_threshold := 5, recovery_timeout_seconds := 60, half_open_max_calls := 1 }
    stateRaw := CBState.closed, failure_count := 4, last_failure_time := 0, half_open_calls := 0 }

/-- A breaker currently probing recovery, used by the C6 witness. -/
def cbHalfOpenFix : CircuitBreaker :=
  { config := { failure_threshold := 5, recovery_timeout_seconds := 60, half_open_max_calls := 1 }
    stateRaw := CBState.halfOpen, failure_count := 5, last_failure_time := 0, half_open_calls := 0 }

/-- An environment that carries a secret variable alongside PATH. -/
def envWithSecret : String → Option String :=
  fun k => if k = "PATH" then some "/usr/bin" else if k = "API_SECRET" then some "s3cr3t" else none

/-- The same environment without the secret. -/
def envPlain : String → Option String :=
  fun k => if k = "PATH" then some "/usr/bin" else none

/- ========================================================================
   C4.  Circuit breaker recovery probe (corrected)
   ======================================================================== -/
/-- An open breaker (threshold 5, 60 s recovery) whose last failure was at
time 0, queried right as the recovery window elapses. -/
def cbOpenProbe : CircuitBreaker :=
  { config := { failure_threshold := 5, recovery_timeout_seconds := 60, half_open_max_calls := 1 }
    stateRaw := CBState.opened, failure_count := 5, last_failure_time := 0, half_open_calls := 0 }

/-- A closed breaker at four consecutive failures (threshold 5). -/
def cbClosedFour : CircuitBreaker :=
  { config := { failure_threshold := 5, recovery_timeout_seconds := 60, half_open_max_calls := 1 }
    stateRaw := CBState.closed, failure_count := 4, last_failure_time := 0, half_open_calls := 0 }

/- ========================================================================
   C5.  Retry policy bounds (corrected)
   ======================================================================== -/
/-- A retry configuration wide enough to reach the cap before running out of
retries (base 1 s, exponent 2, cap 30 s, 6 retries, jitter on). -/
def retryConfigWide : RetryConfig :=
  { max_retries := 6, base_delay_seconds := 1, max_delay_seconds := 30
    exponential_base := 2, jitter := true }

/-- A fresh verification state with a 2-iteration budget and no session id. -/
def vsTwoIter : VerifyStateFile :=
  { config := { command := some "npm test", timeout := some 300000, maxIterations := some 2
                workingDir := none, originalGoal := none }
    state := { iteration := some 0, lastResult := none, sessionId := none }
    topSessionId := none }

/- ========================================================================
   C3.  Session identifier stability (corrected)
   ======================================================================== -/
/-- A fresh verification state whose writer did not record a sessionId. -/
def vsNoSid : VerifyStateFile :=
  { config := { command := some "npm test", timeout := some 300000, maxIterations := some 10
                workingDir := none, originalGoal := none }
    state := { iteration := some 0, lastResult := none, sessionId := none }
    topSessionId := none }

/-- A verification state whose writer persisted a sessionId. -/
def vsWithSid : VerifyStateFile :=
  { config := { command := some "npm test", timeout := some 300000, maxIterations := some 10
                workingDir := none, originalGoal := none }
    state := { iteration := some 0, lastResult := none, sessionId := some "ralph-fixed123" }
    topSessionId := none }

/-- Character lists: the model of Python strings in task_protocol.py. -/
abbrev Chars := List Char

/-- Shorthand turning a Lean string literal into the character-list model. -/
def strChars (s : String) : Chars := s.toList

/-- Boolean prefix test on character lists. -/
def isPrefixB : Chars → Chars → Bool
  | [], _ => true
  | _ :: _, [] => false
  | a :: p, b :: t => a == b && isPrefixB p t

/-- Python whitespace as stripped by `str.strip()`: the characters for which
`str.isspace()` holds — ASCII `\t \n \x0b \x0c \r`, the separators
`\x1c`-`\x1f`, space, next-line `\x85`, no-break space `\xa0`, and the
Unicode space/line/paragraph separators (categories Zs, Zl, Zp). -/
def isPyWs (c : Char) : Bool :=
  c ∈ [' ', '\t', '\n', '\r', '\x0b', '\x0c', '\x1c', '\x1d', '\x1e', '\x1f',
       '\u0085', '\u00a0', '\u1680', '\u2000', '\u2001', '\u2002', '\u2003',
       '\u2004', '\u2005', '\u2006', '\u2007', '\u2008', '\u2009', '\u200a',
       '\u2028', '\u2029', '\u202f', '\u205f', '\u3000']

/-- Python `str.strip()`. -/
def trimChars (s : Chars) : Chars :=
  ((s.dropWhile isPyWs).reverse.dropWhile isPyWs).reverse

/-- The lookahead of the section regexes: `(?=\n## |\Z)`. -/
def stopPat : Chars := strChars "\n## "

/-- The lazy group `(.+?)(?=\n## |\Z)` applied to a nonempty tail: consumes
characters one at a time, stopping as soon as the remaining suffix starts
with `"\n## "` (or at the end of input). -/
def captureLazy : Chars → Chars
  | [] => []
  | a :: rest => a :: (if isPrefixB stopPat rest then [] else captureLazy rest)

/-- `re.search` driver: try the matcher `m` at every position, left to right;
`m` returns the text following a matched header, and a match whose following
text is empty is rejected (the `(.+?)` group needs at least one character),
continuing the scan. -/
def scanMatch (m : Chars → Option Chars) : Chars → Option Chars
  | [] => none
  | c :: rest =>
    match m (c :: rest) with
    | some after => if after.isEmpty then scanMatch m rest else some after
    | none => scanMatch m rest

/-- Matcher for a literal header: matches when `hdr` is a prefix, yielding
the remaining text. -/
def mPlain (hdr : Chars) (s : Chars) : Option Chars :=
  if isPrefixB hdr s then some (s.drop hdr.length) else none

/-- The header text `## {name}\n\n` searched for by `extract_section`. -/
def hdrC (name : Chars) : Chars := strChars "## " ++ name ++ strChars "\n\n"

/-- `extract_section(name)` of task_protocol.py: the leftmost match of
`## {name}\n\n(.+?)(?=\n## |\Z)` (DOTALL), stripped; `""` when the pattern
does not match. -/
def extract_section (name : Chars) (body : Chars) : Chars :=
  match scanMatch (mPlain (hdrC name)) body with
  | some after => trimChars (captureLazy after)
  | none => []

/-- Literal pieces of the `Last Failure \(Iteration \d+\)` header pattern. -/
def lfPre : Chars := strChars "## Last Failure (Iteration "

/-- Closing piece of the Last-Failure header pattern. -/
def lfPost : Chars := strChars ")\n\n"

/-- Matcher for `## Last Failure \(Iteration \d+\)\n\n` at one position:
the literal prefix, one or more digits, then the literal close. -/
def matchLFHeaderAt (s : Chars) : Option Chars :=
  if isPrefixB lfPre s then
    let t := s.drop lfPre.length
    let ds := t.takeWhile Char.isDigit
    if ds ≠ [] ∧ isPrefixB lfPost (t.drop ds.length) then
      some (t.drop (ds.length + lfPost.length))
    else none
  else none

/-- `extract_section(r"Last Failure \(Iteration \d+\)")`. -/
def extract_last_failure (body : Chars) : Chars :=
  match scanMatch matchLFHeaderAt body with
  | some after => trimChars (captureLazy after)
  | none => []

/-- Substring containment (Python `in`). -/
def containsSub (pat : Chars) : Chars → Bool
  | [] => isPrefixB pat []
  | c :: rest => isPrefixB pat (c :: rest) || containsSub pat rest

/-- The closing frontmatter marker `\n---`. -/
def fmMarker : Chars := strChars "\n---"

/-- The lazy group of `^---\n(.+?)\n---`: scans for the first `\n---` whose
preceding captured text is nonempty; returns the capture and the text after
the marker. -/
def splitAtMarker : Chars → Option (Chars × Chars)
  | [] => none
  | c :: rest =>
    if isPrefixB fmMarker rest then some ([c], rest.drop 4)
    else
      match splitAtMarker rest with
      | some p => some (c :: p.1, p.2)
      | none => none

/-- `re.match(r"^---\n(.+?)\n---", content, DOTALL)`: anchored at the start;
returns the YAML text and the content after the match end. -/
def splitFrontmatter (content : Chars) : Option (Chars × Chars) :=
  if isPrefixB (strChars "---\n") content then splitAtMarker (content.drop 4)
  else none

/- ===== decimal digits ===== -/
/-- Decimal digit characters (the digits PyYAML prints for an int). -/
def digitChar (d : Nat) : Char :=
  match d with
  | 0 => '0' | 1 => '1' | 2 => '2' | 3 => '3' | 4 => '4'
  | 5 => '5' | 6 => '6' | 7 => '7' | 8 => '8' | _ => '9'

/-- Numeric value of a digit character. -/
def digitVal (c : Char) : Nat := c.toNat - 48

/-- Little-endian digit characters of `n`, with explicit fuel. -/
def natDigitsRev : Nat → Nat → Chars
  | 0, _ => []
  | fuel + 1, n => if n = 0 then [] else digitChar (n % 10) :: natDigitsRev fuel (n / 10)

/-- Decimal rendering of a natural number (as Python/PyYAML print it). -/
def natToChars (n : Nat) : Chars :=
  if n = 0 then ['0'] else (natDigitsRev (n + 1) n).reverse

/-- Decimal rendering of a Python int. -/
def intToChars (i : Int) : Chars :=
  if i < 0 then '-' :: natToChars i.natAbs else natToChars i.toNat

/-- Numeric value of a digit string (what `yaml.safe_load` gives back for an
all-digit scalar). -/
def charsToNat (ds : Chars) : Nat :=
  ds.foldl (fun acc c => acc * 10 + digitVal c) 0

/- ===== YAML frontmatter model =====

The source calls `yaml.dump(frontmatter, default_flow_style=False)` and
`yaml.safe_load`.  PyYAML is modelled for the fragment this file exercises:
keys sorted alphabetically (PyYAML default), one `key: value` line per entry,
plain scalars (well-formedness below restricts string values to characters
PyYAML emits unquoted and short enough not to be line-folded), ints printed
in decimal. -/
/-- A loaded YAML scalar: int or string. -/
inductive YamlVal
  | intVal (n : Int)
  | strVal (s : Chars)
deriving DecidableEq, Repr

/-- Split a line at its first `": "`, the key/value separator. -/
def splitColonSpace : Chars → Option (Chars × Chars)
  | [] => none
  | a :: rest =>
    if a = ':' ∧ isPrefixB [' '] rest then some ([], rest.drop 1)
    else
      match splitColonSpace rest with
      | some p => some (a :: p.1, p.2)
      | none => none

/-- YAML implicit typing for the scalars this file produces: an all-digit
scalar loads as an int, everything else (restricted by well-formedness) as a
string. -/
def classifyYamlVal (v : Chars) : YamlVal :=
  if v ≠ [] ∧ v.all Char.isDigit then YamlVal.intVal (charsToNat v) else YamlVal.strVal v

/-- Parse one `key: value` line. -/
def parseYamlLine (line : Chars) : Option (Chars × YamlVal) :=
  (splitColonSpace line).map (fun p => (p.1, classifyYamlVal p.2))

/-- `yaml.safe_load` on the frontmatter block: one mapping entry per line. -/
def yaml_safe_load (y : Chars) : Option (List (Chars × YamlVal)) :=
  (y.splitOn '\n').mapM parseYamlLine

/-- `frontmatter.get(key, default)` for a string-typed field.  (An int value
under a string key cannot arise from a rendered document; it is re-rendered
as its decimal digits, matching what PyYAML would print for the int.) -/
def fmGetStr (d : List (Chars × YamlVal)) (k : Chars) (dflt : Chars) : Chars :=
  match d.lookup k with
  | some (YamlVal.strVal s) => s
  | some (YamlVal.intVal n) => intToChars n
  | none => dflt

/-- `frontmatter.get(key, default)` for an int-typed field.  (A string value
under an int key cannot arise from a rendered document; modelled as the
default.) -/
def fmGetInt (d : List (Chars × YamlVal)) (k : Chars) (dflt : Int) : Int :=
  match d.lookup k with
  | some (YamlVal.intVal n) => n
  | some (YamlVal.strVal _) => dflt
  | none => dflt

/- ===== task documents (task_protocol.py) ===== -/
/-- `TaskMetadata` dataclass. -/
structure TaskMetadata where
  id : Chars
  created : Chars
  original_request : Chars
  verification_command : Chars
  max_iterations : Int
  current_iteration : Int
  timeout_seconds : Int
  working_directory : Chars
  max_budget_usd : ℚ
deriving DecidableEq, Repr

/-- `TaskFile` dataclass. -/
structure TaskFile where
  metadata : TaskMetadata
  session_story : Chars
  diff_summary : Chars
  current_state : Chars
  last_failure : Chars
  what_to_try : Chars
  instructions : Chars
deriving DecidableEq, Repr

/-- The `key: value` lines of `yaml.dump(frontmatter,
default_flow_style=False)`, in PyYAML's sorted key order.  `max_budget_usd`
is NOT part of the dumped frontmatter (see render_task_file in the source). -/
def yamlLines (m : TaskMetadata) : List Chars :=
  [ strChars "created: " ++ m.created
  , strChars "current_iteration: " ++ intToChars m.current_iteration
  , strChars "id: " ++ m.id
  , strChars "max_iterations: " ++ intToChars m.max_iterations
  , strChars "original_request: " ++ m.original_request
  , strChars "timeout_seconds: " ++ intToChars m.timeout_seconds
  , strChars "verification_command: " ++ m.verification_command
  , strChars "working_directory: " ++ m.working_directory ]

/-- `yaml.dump` output: the lines joined by newlines, with a final newline. -/
def yamlDumpFM (m : TaskMetadata) : Chars :=
  List.intercalate ['\n'] (yamlLines m) ++ ['\n']

/-- The condition under which render_task_file includes the diff section:
`task.diff_summary and "No file changes" not in task.diff_summary`. -/
def diffIncluded (t : TaskFile) : Bool :=
  !t.diff_summary.isEmpty && !containsSub (strChars "No file changes") t.diff_summary

/-- `render_task_file(task)`: frontmatter plus the fixed prose sections,
joined by blank lines; the diff section only when `diffIncluded`. -/
def render_task_file (t : TaskFile) : Chars :=
  List.intercalate (strChars "\n\n")
    ([ strChars "---\n" ++ yamlDumpFM t.metadata ++ strChars "---"
     , strChars "## Original Goal\n\n" ++ t.metadata.original_request
     , strChars "## Session Story\n\n" ++ t.session_story ]
     ++ (if diffIncluded t then
          [strChars "## Git-Style Change Summary\n\n" ++ t.diff_summary]
        else [])
     ++ [ strChars "## Current State\n\n" ++ t.current_state
        , strChars "## Last Failure (Iteration " ++
            intToChars (t.metadata.current_iteration - 1) ++ strChars ")\n\n" ++ t.last_failure
        , strChars "## What To Try Next\n\n" ++ t.what_to_try
        , strChars "## Instructions\n\n" ++ t.instructions ])

/-- `parse_task_file(content)`: frontmatter via the anchored regex, metadata
via `.get` with defaults (`max_budget_usd` is absent from the frontmatter and
always defaults to 1.00), sections via `extract_section`, with the
Last-Failure section first tried with its iteration-numbered header. -/
def parse_task_file (content : Chars) : Option TaskFile :=
  match splitFrontmatter content with
  | none => none
  | some (y, body) =>
    match yaml_safe_load y with
    | none => none
    | some d =>
      some
        { metadata :=
            { id := fmGetStr d (strChars "id") []
              created := fmGetStr d (strChars "created") []
              original_request := fmGetStr d (strChars "original_request") []
              verification_command := fmGetStr d (strChars "verification_command") []
              max_iterations := fmGetInt d (strChars "max_iterations") 5
              current_iteration := fmGetInt d (strChars "current_iteration") 1
              timeout_seconds := fmGetInt d (strChars "timeout_seconds") 300
              working_directory := fmGetStr d (strChars "working_directory") []
              max_budget_usd := 1 }
          session_story := extract_section (strChars "Session Story") body
          diff_summary := extract_section (strChars "Git-Style Change Summary") body
          current_state := extract_section (strChars "Current State") body
          last_failure :=
            (let a := extract_last_failure body
             if a.isEmpty then extract_section (strChars "Last Failure") body else a)
          what_to_try := extract_section (strChars "What To Try Next") body
          instructions := extract_section (strChars "Instructions") body }

/- ===== well-formedness ===== -/
/-- Characters PyYAML keeps in an unquoted plain scalar (as restricted by the
model): letters, digits, space, dot, slash, underscore, dash. -/
def yamlSafeChar (c : Char) : Bool :=
  c.isAlphanum || c = ' ' || c = '.' || c = '/' || c = '_' || c = '-'

/-- Lower-case scalar spellings PyYAML would implicitly type as bool/null and
therefore quote; excluded from well-formed string values. -/
def yamlReserved : List Chars :=
  [strChars "true", strChars "false", strChars "yes", strChars "no",
   strChars "on", strChars "off", strChars "null", strChars "y", strChars "n"]

/-- A string value that dumps as an unquoted one-line plain scalar and loads
back unchanged: nonempty, short enough not to be line-folded, starting with a
letter, made of safe characters, no trailing space, not a reserved word. -/
def yamlStrOK (s : Chars) : Bool :=
  !s.isEmpty && s.length ≤ 50 &&
  (match s.head? with
   | some c => c.isAlpha
   | none => false) &&
  s.all yamlSafeChar &&
  (match s.getLast? with
   | some c => c != ' '
   | none => false) &&
  !(yamlReserved.contains (s.map Char.toLower))

/-- A well-formed narrative section: nonempty, free of `#` (so no embedded
markdown headers), and already stripped (no leading/trailing whitespace). -/
def sectionOK (s : Chars) : Bool :=
  !s.isEmpty && s.all (fun c => c != '#') &&
  (match s.head? with
   | some c => !isPyWs c
   | none => false) &&
  (match s.getLast? with
   | some c => !isPyWs c
   | none => false)

/-- Well-formed task documents: the domain of the round-trip property. -/
def wellFormedTask (t : TaskFile) : Bool :=
  yamlStrOK t.metadata.id && yamlStrOK t.metadata.created &&
  yamlStrOK t.metadata.original_request && yamlStrOK t.metadata.verification_command &&
  yamlStrOK t.metadata.working_directory &&
  (1 ≤ t.metadata.current_iteration) && (0 ≤ t.metadata.max_iterations) &&
  (0 ≤ t.metadata.timeout_seconds) &&
  sectionOK t.session_story && sectionOK t.current_state && sectionOK t.last_failure &&
  sectionOK t.what_to_try && sectionOK t.instructions &&
  (t.diff_summary.isEmpty || sectionOK t.diff_summary)

/- ===== body shape of the rendered document ===== -/
/-- The blank-line separator between sections. -/
def sepC : Chars := strChars "\n\n"

/-- The section body of a rendered task document: everything after the
closing frontmatter marker. -/
def bodyChars (t : TaskFile) : Chars :=
  sepC ++ hdrC (strChars "Original Goal") ++ t.metadata.original_request ++
  sepC ++ hdrC (strChars "Session Story") ++ t.session_story ++
  (if diffIncluded t then
    sepC ++ hdrC (strChars "Git-Style Change Summary") ++ t.diff_summary
  else []) ++
  sepC ++ hdrC (strChars "Current State") ++ t.current_state ++
  sepC ++ lfPre ++ intToChars (t.metadata.current_iteration - 1) ++ lfPost ++
  t.last_failure ++
  sepC ++ hdrC (strChars "What To Try Next") ++ t.what_to_try ++
  sepC ++ hdrC (strChars "Instructions") ++ t.instructions

/-- The mapping `yaml.safe_load` recovers from the dumped frontmatter. -/
def fmDict (m : TaskMetadata) : List (Chars × YamlVal) :=
  [ (strChars "created", YamlVal.strVal m.created)
  , (strChars "current_iteration", YamlVal.intVal m.current_iteration)
  , (strChars "id", YamlVal.strVal m.id)
  , (strChars "max_iterations", YamlVal.intVal m.max_iterations)
  , (strChars "original_request", YamlVal.strVal m.original_request)
  , (strChars "timeout_seconds", YamlVal.intVal m.timeout_seconds)
  , (strChars "verification_command", YamlVal.strVal m.verification_command)
  , (strChars "working_directory", YamlVal.strVal m.working_directory) ]

/- ===== the round-tripped document ===== -/
/-- What one render/parse trip does to a well-formed task: the
`max_budget_usd` field is reset to its default (it is never dumped), and a
suppressed diff section is read back empty.  Every other field survives. -/
def normalizeTask (t : TaskFile) : TaskFile :=
  { t with
    metadata := { t.metadata with max_budget_usd := 1 }
    diff_summary := if diffIncluded t then t.diff_summary else [] }

/-- A concrete well-formed task document. -/
def exTask : TaskFile :=
  { metadata :=
      { id := strChars "task-1"
        created := strChars "Jan 1 2026"
        original_request := strChars "Fix the build"
        verification_command := strChars "npm test"
        max_iterations := 5
        current_iteration := 2
        timeout_seconds := 300
        working_directory := strChars "repo/main"
        max_budget_usd := 1 }
    session_story := strChars "Tried one fix."
    diff_summary := strChars "Changed one file."
    current_state := strChars "Build is red."
    last_failure := strChars "Type error in main."
    what_to_try := strChars "Adjust the type."
    instructions := strChars "Run the verifier." }

/- ========================================================================
   Theorems
   ======================================================================== -/

/- ========================================================================
   Helper lemmas
   ======================================================================== -/
/-- The pass/fail flag `spawn_isolated_iteration` returns is exactly the one
of the independent re-verification. -/
@[simp] theorem spawnIsolatedOutcome_passed (s : CliSpawnResult) (r : VerifyRunResult) :
    (spawnIsolatedOutcome s r).passed = r.passed := by
  unfold spawnIsolatedOutcome
  by_cases h : r.passed <;> simp [h]

/- ========================================================================
   C1.  Escalation independence
   ======================================================================== -/
/-- C1: whenever the Controller escalates to a spawned process (verification
failed, isolation enabled, past the in-context threshold, not itself spawned,
no exception), it re-runs the verification command after the spawned process
completes (two verification executions on that invocation), and the reported
pass/fail outcome equals the independent re-run's outcome for every possible
spawned-process result — in particular a spawned result reporting success
cannot make the loop pass when the independent run fails. -/
theorem c1_escalation_independence (vs : VerifyStateFile) (iso : IsolationConfig)
    (freshU : String) (verifyResult : VerifyRunResult) (trackerHasGoal : Bool)
    (spawnRes : CliSpawnResult) (reverify : VerifyRunResult)
    (hIter : vs.state.iteration.getD 0 + 1 ≤ vs.config.maxIterations.getD 10)
    (hFail : verifyResult.passed = false)
    (hEnabled : iso.enabled = true)
    (hThr : iso.inContextThreshold < vs.state.iteration.getD 0 + 1) :
    (mainStep false (some vs) iso false freshU verifyResult trackerHasGoal false 0
        spawnRes reverify).verifyRuns = 2 ∧
    (mainStep false (some vs) iso false freshU verifyResult trackerHasGoal false 0
        spawnRes reverify).spawnAttempted = true ∧
    (mainStep false (some vs) iso false freshU verifyResult trackerHasGoal false 0
        spawnRes reverify).decision.isAllow = reverify.passed := by
  unfold mainStep
  simp only [if_neg (Bool.false_ne_true), Nat.not_lt.mpr hIter, hFail, hEnabled, hThr,
    if_false, if_true, and_true, true_and, Bool.false_eq_true, not_false_eq_true]
  by_cases hr : reverify.passed <;>
    simp [hr, spawnIsolatedOutcome_passed, HookDecision.isAllow, Nat.not_lt.mpr hIter, hThr]

/-- C1 witness: concrete escalation where the spawned process reports success
but the independent re-run fails; the loop reports failure. -/
theorem c1_witness :
    (vsEscalating.state.iteration.getD 0 + 1 ≤ vsEscalating.config.maxIterations.getD 10) ∧
    (rFailFix.passed = false) ∧ (isoOn.enabled = true) ∧
    (isoOn.inContextThreshold < vsEscalating.state.iteration.getD 0 + 1) ∧
    ((mainStep false (some vsEscalating) isoOn false "aaaaaaaa" rFailFix false false 0
        spawnOkFix rFailFix).decision.isAllow = rFailFix.passed) :=
  ⟨by decide, by decide, by decide, by decide,
   (c1_escalation_independence vsEscalating isoOn "aaaaaaaa" rFailFix false spawnOkFix rFailFix
      (by decide) (by decide) (by decide) (by decide)).2.2⟩

/- ========================================================================
   C6.  Circuit breaker state transitions
   ======================================================================== -/
/-- C6: from CLOSED, recording a failure opens the breaker exactly when the
incremented consecutive-failure count reaches `failure_threshold`; recording a
success while CLOSED resets the counter to zero and stays CLOSED; from
HALF_OPEN any single recorded failure reopens the breaker. -/
theorem c6_circuit_transitions (cb : CircuitBreaker) (now : ℚ) :
    (cb.stateRaw = CBState.closed →
      ((cb.record_failure now).stateRaw = CBState.opened ↔
        cb.config.failure_threshold ≤ cb.failure_count + 1)) ∧
    (cb.stateRaw = CBState.closed →
      (cb.record_success).failure_count = 0 ∧ (cb.record_success).stateRaw = CBState.closed) ∧
    (cb.stateRaw = CBState.halfOpen →
      (cb.record_failure now).stateRaw = CBState.opened) := by
  refine ⟨fun hclosed => ?_, fun hclosed => ?_, fun hhalf => ?_⟩
  · unfold CircuitBreaker.record_failure
    rw [hclosed]
    by_cases hthr : cb.config.failure_threshold ≤ cb.failure_count + 1 <;>
      simp [hthr, hclosed]
  · unfold CircuitBreaker.record_success
    rw [hclosed]
    simp [hclosed]
  · unfold CircuitBreaker.record_failure
    rw [hhalf]
    simp

/-- C6 witness: the fifth consecutive failure opens a threshold-5 breaker, a
success while closed resets the counter, and a half-open failure reopens. -/
theorem c6_witness :
    cbNearThreshold.stateRaw = CBState.closed ∧
    (cbNearThreshold.record_failure 10).stateRaw = CBState.opened ∧
    (cbNearThreshold.record_success).failure_count = 0 ∧
    cbHalfOpenFix.stateRaw = CBState.halfOpen ∧
    (cbHalfOpenFix.record_failure 70).stateRaw = CBState.opened :=
  ⟨rfl,
   ((c6_circuit_transitions cbNearThreshold 10).1 rfl).mpr (by decide),
   ((c6_circuit_transitions cbNearThreshold 10).2.1 rfl).1,
   rfl,
   (c6_circuit_transitions cbHalfOpenFix 70).2.2 rfl⟩

/- ========================================================================
   C7.  Structured-output parsing totality (code bug)
   ======================================================================== -/
/-- C7 (code bug): `_parse_json_output` is not total.  On the valid-JSON,
non-object input `"[1]"`, `json.loads` succeeds with a list, and
`data.get("result", ...)` raises `AttributeError`, which the function's
`except (json.JSONDecodeError, TypeError, KeyError)` clause does not catch —
the exception escapes instead of degrading to the raw text.  Malformed
(non-JSON) input does degrade gracefully, as the claim describes. -/
theorem c7_parse_json_output_raises :
    parse_json_output (some (PyJson.arr [PyJson.num 1])) "[1]" =
      Except.error PyExc.attributeError ∧
    parse_json_output none "not json" = Except.ok (PyJson.str "not json", none) :=
  ⟨rfl, rfl⟩

/- ========================================================================
   C9.  Re-entrancy guard
   ======================================================================== -/
/-- C9: when the hook input carries the loop-prevention flag
(`stop_hook_active`), `main` returns immediately: it allows the stop with no
output, runs no verification, spawns nothing, writes nothing to the session
ledger, and leaves the verification state file exactly as it was. -/
theorem c9_reentrancy_guard (vsOpt : Option VerifyStateFile) (iso : IsolationConfig)
    (ralphSpawned : Bool) (u : String) (r : VerifyRunResult) (trackerHasGoal : Bool)
    (spawnRaises : Bool) (raisePartialWrites : Nat) (spawnRes : CliSpawnResult)
    (reverify : VerifyRunResult) :
    mainStep true vsOpt iso ralphSpawned u r trackerHasGoal spawnRaises raisePartialWrites
        spawnRes reverify =
      { decision := HookDecision.allowStop none, stateFile := vsOpt, verifyRuns := 0,
        spawnAttempted := false, ledgerWrites := 0, observedSessionId := none } := by
  unfold mainStep
  simp

/- ========================================================================
   C10.  Verification environment restriction
   ======================================================================== -/
/-- C10: `run_verification` passes the verification command an environment
containing at most PATH, HOME, USER, SHELL, NODE_ENV and CI; any two
supervising-process environments that agree on those six variables produce
identical `subprocess.run` invocations, and every other variable is absent
from the child environment. -/
theorem c10_env_restriction (env1 env2 : String → Option String) (command : String)
    (timeout : Nat) (cwd : String)
    (hagree : ∀ k ∈ allowedVerificationEnvKeys, env1 k = env2 k) :
    mkVerificationInvocation command timeout cwd env1 =
      mkVerificationInvocation command timeout cwd env2 ∧
    ∀ k, k ∉ allowedVerificationEnvKeys → filterVerificationEnv env1 k = none := by
  constructor
  · unfold mkVerificationInvocation
    have henv : filterVerificationEnv env1 = filterVerificationEnv env2 := by
      funext k
      unfold filterVerificationEnv
      by_cases hk : k ∈ allowedVerificationEnvKeys
      · simp only [hk, if_true, hagree k hk]
      · simp only [hk, if_false]
    rw [henv]
  · intro k hk
    unfold filterVerificationEnv
    simp only [hk, if_false]

/-- C10 witness: the two environments differ only on a non-allow-listed
variable, and the resulting verification invocations are identical. -/
theorem c10_witness :
    (∀ k ∈ allowedVerificationEnvKeys, envWithSecret k = envPlain k) ∧
    mkVerificationInvocation "npm test" 300 "/repo" envWithSecret =
      mkVerificationInvocation "npm test" 300 "/repo" envPlain :=
  ⟨by intro k hk; fin_cases hk <;> rfl,
   (c10_env_restriction envWithSecret envPlain "npm test" 300 "/repo"
      (by intro k hk; fin_cases hk <;> rfl)).1⟩

/-- C4 counterexample: once the recovery timeout has elapsed, `can_execute`
does not consume the half-open budget — two consecutive queries at time 60,
with no outcome recorded in between, are BOTH answered `true`, refuting
"at most one of them is answered true". -/
theorem c4_counterexample :
    (cbOpenProbe.can_execute 60).1 = true ∧
    ((cbOpenProbe.can_execute 60).2.can_execute 60).1 = true := by
  constructor <;>
    · unfold CircuitBreaker.can_execute CircuitBreaker.state cbOpenProbe
      norm_num

/-- C4 (amended): after `failure_threshold` consecutive failures the next call
is rejected while the recovery window is open; once `recovery_timeout_seconds`
have elapsed since the last failure, a query flips the breaker to HALF_OPEN
with a zeroed probe budget and is answered `true`; but `can_execute` itself
never mutates a HALF_OPEN breaker, so every query made before an outcome is
recorded receives the same answer — only `record_success`/`record_failure`
consume the single-probe budget. -/
theorem c4_amended (cb : CircuitBreaker) (now now2 : ℚ) :
    (cb.stateRaw = CBState.opened →
      now - cb.last_failure_time < cb.config.recovery_timeout_seconds →
      (cb.can_execute now).1 = false) ∧
    (cb.stateRaw = CBState.opened →
      cb.config.recovery_timeout_seconds ≤ now - cb.last_failure_time →
      0 < cb.config.half_open_max_calls →
      (cb.can_execute now).1 = true ∧
        (cb.can_execute now).2.stateRaw = CBState.halfOpen ∧
        (cb.can_execute now).2.half_open_calls = 0) ∧
    (cb.stateRaw = CBState.halfOpen → (cb.can_execute now).2 = cb) ∧
    (cb.stateRaw = CBState.closed →
      cb.config.failure_threshold ≤ cb.failure_count + 1 →
      now2 - now < cb.config.recovery_timeout_seconds →
      ((cb.record_failure now).can_execute now2).1 = false) := by
  refine ⟨fun hopen hwin => ?_, fun hopen hrec hmax => ?_, fun hhalf => ?_,
          fun hclosed hthr hwin => ?_⟩
  · unfold CircuitBreaker.can_execute CircuitBreaker.state
    rw [hopen]
    simp [Rat.not_le.mpr hwin]
  · unfold CircuitBreaker.can_execute CircuitBreaker.state
    rw [hopen]
    simp [hrec, hmax]
  · unfold CircuitBreaker.can_execute CircuitBreaker.state
    rw [hhalf]
    simp
  · unfold CircuitBreaker.record_failure
    rw [hclosed]
    simp only [ge_iff_le, hthr, if_true, reduceCtorEq, if_false]
    unfold CircuitBreaker.can_execute CircuitBreaker.state
    simp [Rat.not_le.mpr hwin]

/-- C4 witness: a fifth failure at time 100 makes an immediately following
call (still inside the window) rejected; an open breaker queried after the
window opens exactly one probe; a half-open breaker is untouched by queries. -/
theorem c4_witness :
    ((cbClosedFour.record_failure 100).can_execute 100).1 = false ∧
    (cbOpenProbe.can_execute 60).1 = true ∧
    (cbOpenProbe.can_execute 60).2.stateRaw = CBState.halfOpen ∧
    (cbHalfOpenFix.can_execute 10).2 = cbHalfOpenFix :=
  ⟨(c4_amended cbClosedFour 100 100).2.2.2 rfl (by decide) (by simp [cbClosedFour]),
   ((c4_amended cbOpenProbe 60 0).2.1 rfl (by simp [cbOpenProbe]) (by decide)).1,
   ((c4_amended cbOpenProbe 60 0).2.1 rfl (by simp [cbOpenProbe]) (by decide)).2.1,
   (c4_amended cbHalfOpenFix 10 0).2.2.1 rfl⟩

/-- C5 counterexample: at attempt index 5 < maxRetries the un-jittered delay
is capped at 30 s, and the admissible jitter draw +7 (within ±25% of 30)
yields a delay of 37 s — outside the claimed interval
`[base*exp^5*(1-0.25), cap] = [24, 30]`, because jitter is added AFTER the
cap is applied. -/
theorem c5_counterexample :
    5 < retryConfigWide.max_retries ∧
    |(7 : ℚ)| ≤ backoffRawDelay 5 retryConfigWide / 4 ∧
    calculate_backoff_delay 5 retryConfigWide 7 = 37 ∧
    ¬ calculate_backoff_delay 5 retryConfigWide 7 ≤ retryConfigWide.max_delay_seconds := by
  refine ⟨by decide, ?_, ?_, ?_⟩
  · unfold backoffRawDelay retryConfigWide
    norm_num
  · unfold calculate_backoff_delay backoffRawDelay retryConfigWide
    norm_num
  · unfold calculate_backoff_delay backoffRawDelay retryConfigWide
    norm_num

/-- The loop body performs at most one attempt per remaining loop index. -/
theorem spawnLoopAttempts_le (outcomes : Nat → AttemptOutcome) (max_retries : Nat) :
    ∀ fuel attempt, spawnLoopAttempts outcomes max_retries fuel attempt ≤ fuel := by
  intro fuel
  induction fuel with
  | zero => intro attempt; simp [spawnLoopAttempts]
  | succ n ih =>
    intro attempt
    unfold spawnLoopAttempts
    have hstep := ih (attempt + 1)
    match outcomes attempt with
    | AttemptOutcome.completed true => simp
    | AttemptOutcome.fileNotFound => simp
    | AttemptOutcome.completed false =>
      by_cases h : attempt ≥ max_retries <;> simp [h] <;> omega
    | AttemptOutcome.timedOut =>
      by_cases h : attempt ≥ max_retries <;> simp [h] <;> omega
    | AttemptOutcome.raised =>
      by_cases h : attempt ≥ max_retries <;> simp [h] <;> omega

/-- C5 (amended): with jitter enabled, the delay inserted after attempt `k`
lies within ±25% of the CAPPED base delay `min(base*exp^k, cap)` — it may
exceed `cap` by up to 25% when the cap binds, and may sit below
`base*exp^k*(1-jitter)` likewise; and the total number of spawn attempts made
by one call never exceeds `maxRetries + 1`. -/
theorem c5_amended (attempt : Nat) (config : RetryConfig) (j : ℚ)
    (outcomes : Nat → AttemptOutcome)
    (hjit : config.jitter = true)
    (hj : |j| ≤ backoffRawDelay attempt config / 4) :
    (3 / 4) * backoffRawDelay attempt config ≤ calculate_backoff_delay attempt config j ∧
    calculate_backoff_delay attempt config j ≤ (5 / 4) * backoffRawDelay attempt config ∧
    spawnAttemptCount outcomes config.max_retries ≤ config.max_retries + 1 := by
  have hjabs := abs_le.mp hj
  have hraw : 0 ≤ backoffRawDelay attempt config := by
    have h0 : (0 : ℚ) ≤ |j| := abs_nonneg j
    have h1 : (0 : ℚ) ≤ backoffRawDelay attempt config / 4 := le_trans h0 hj
    linarith
  unfold calculate_backoff_delay
  rw [hjit]
  simp only [if_true]
  have hmax : max 0 (backoffRawDelay attempt config + j) =
      backoffRawDelay attempt config + j := by
    apply max_eq_right
    have := hjabs.1
    linarith
  rw [hmax]
  refine ⟨by linarith [hjabs.1], by linarith [hjabs.2], ?_⟩
  exact spawnLoopAttempts_le outcomes config.max_retries (config.max_retries + 1) 0

/-- C5 witness: the default configuration at attempt 0 with a zero jitter
draw — the delay is within the amended bounds and a constantly failing call
makes exactly `maxRetries + 1 = 4` attempts. -/
theorem c5_witness :
    defaultRetryConfig.jitter = true ∧
    |(0 : ℚ)| ≤ backoffRawDelay 0 defaultRetryConfig / 4 ∧
    (3 / 4) * backoffRawDelay 0 defaultRetryConfig ≤
      calculate_backoff_delay 0 defaultRetryConfig 0 ∧
    spawnAttemptCount (fun _ => AttemptOutcome.completed false) defaultRetryConfig.max_retries ≤
      defaultRetryConfig.max_retries + 1 :=
  ⟨rfl,
   by simp [backoffRawDelay, defaultRetryConfig],
   (c5_amended 0 defaultRetryConfig 0 (fun _ => AttemptOutcome.completed false) rfl
      (by simp [backoffRawDelay, defaultRetryConfig])).1,
   (c5_amended 0 defaultRetryConfig 0 (fun _ => AttemptOutcome.completed false) rfl
      (by simp [backoffRawDelay, defaultRetryConfig])).2.2⟩

/- ========================================================================
   Controller helper lemmas (C2, C3)
   ======================================================================== -/
/-- An in-context invocation on a failing verification below the iteration
limit: blocks the stop, runs verification once, saves the incremented
counter. -/
theorem inContextStep_block (iso : IsolationConfig) (u : String) (r : VerifyRunResult)
    (vs : VerifyStateFile) (hfail : r.passed = false) (hdis : iso.enabled = false)
    (hle : vs.state.iteration.getD 0 + 1 ≤ vs.config.maxIterations.getD 10) :
    inContextStep iso u r (some vs) =
      { decision := HookDecision.block
          (format_error_feedback r (saveAfterVerify vs (vs.state.iteration.getD 0 + 1) r))
        stateFile := some (saveAfterVerify vs (vs.state.iteration.getD 0 + 1) r)
        verifyRuns := 1, spawnAttempted := false, ledgerWrites := 0
        observedSessionId := some (ensure_ralph_session_id vs (genSessionId u)) } := by
  unfold inContextStep mainStep
  simp [hfail, hdis, Nat.not_lt.mpr hle]

/-- Any invocation whose incremented iteration counter exceeds the limit
clears the state and allows the stop without executing verification. -/
theorem mainStep_exhaust (vs : VerifyStateFile) (iso : IsolationConfig) (ralphSpawned : Bool)
    (u : String) (r : VerifyRunResult) (thg sr : Bool) (rpw : Nat) (spawnRes : CliSpawnResult)
    (reverify : VerifyRunResult)
    (hgt : vs.config.maxIterations.getD 10 < vs.state.iteration.getD 0 + 1) :
    mainStep false (some vs) iso ralphSpawned u r thg sr rpw spawnRes reverify =
      { decision := HookDecision.allowStop
          (some (maxIterationsMessage (vs.config.maxIterations.getD 10)))
        stateFile := none, verifyRuns := 0, spawnAttempted := false, ledgerWrites := 0
        observedSessionId := some (ensure_ralph_session_id vs (genSessionId u)) } := by
  unfold mainStep
  simp [hgt]

/-- Shape of the state file along the in-context trace: after `k ≤ N` failing
invocations the persisted iteration counter is exactly `k` and the config and
sessionId are untouched. -/
theorem inContextTrace_spec (iso : IsolationConfig) (u : String) (r : VerifyRunResult)
    (vs0 : VerifyStateFile) (N : Nat)
    (h0 : vs0.state.iteration.getD 0 = 0) (hN : vs0.config.maxIterations.getD 10 = N)
    (hfail : r.passed = false) (hdis : iso.enabled = false) :
    ∀ k, k ≤ N → ∃ vs, inContextTrace iso u r (some vs0) k = some vs ∧
      vs.config = vs0.config ∧ vs.state.iteration.getD 0 = k ∧
      vs.state.sessionId = vs0.state.sessionId := by
  intro k
  induction k with
  | zero => exact fun _ => ⟨vs0, rfl, rfl, h0, rfl⟩
  | succ n ih =>
    intro hkN
    obtain ⟨vs, htr, hcfg, hiter, hsid⟩ := ih (Nat.le_of_succ_le hkN)
    have hle : vs.state.iteration.getD 0 + 1 ≤ vs.config.maxIterations.getD 10 := by
      rw [hiter, hcfg, hN]; exact hkN
    refine ⟨saveAfterVerify vs (vs.state.iteration.getD 0 + 1) r, ?_, ?_, ?_, ?_⟩
    · show (inContextStep iso u r (inContextTrace iso u r (some vs0) n)).stateFile = _
      rw [htr, inContextStep_block iso u r vs hfail hdis hle]
    · simp [saveAfterVerify, hcfg]
    · simp [saveAfterVerify, hiter]
    · simp [saveAfterVerify, hsid]

/-- Along the in-context trace, each of the first `N` invocations executes
the verification command exactly once. -/
theorem inContextTotalRuns_spec (iso : IsolationConfig) (u : String) (r : VerifyRunResult)
    (vs0 : VerifyStateFile) (N : Nat)
    (h0 : vs0.state.iteration.getD 0 = 0) (hN : vs0.config.maxIterations.getD 10 = N)
    (hfail : r.passed = false) (hdis : iso.enabled = false) :
    ∀ k, k ≤ N → inContextTotalRuns iso u r (some vs0) k = k := by
  intro k
  induction k with
  | zero => exact fun _ => rfl
  | succ n ih =>
    intro hkN
    obtain ⟨vs, htr, hcfg, hiter, _⟩ :=
      inContextTrace_spec iso u r vs0 N h0 hN hfail hdis n (Nat.le_of_succ_le hkN)
    have hle : vs.state.iteration.getD 0 + 1 ≤ vs.config.maxIterations.getD 10 := by
      rw [hiter, hcfg, hN]; exact hkN
    show inContextTotalRuns iso u r (some vs0) n +
        (inContextStep iso u r (inContextTrace iso u r (some vs0) n)).verifyRuns = n + 1
    rw [ih (Nat.le_of_succ_le hkN), htr, inContextStep_block iso u r vs hfail hdis hle]

/- ========================================================================
   C2.  Exhaustion after exactly N failing verifications
   ======================================================================== -/
/-- C2: with `maxIterations = N` and isolation disabled, the controller
reaches the exhausted terminal state after exactly the `N`th failing
verification: (a) on ANY invocation whose incremented iteration counter
exceeds the limit, the state is cleared and termination allowed without
executing the verification command, regardless of every other input;
(b) each of the first `N` invocations runs the verification command exactly
once and blocks; (c) invocation `N+1` allows termination, deletes the state
file and does not run the verification command; (d) in total exactly `N`
verification executions happen across the `N+1` invocations. -/
theorem c2_exhaustion (N : Nat) (iso : IsolationConfig) (u : String) (r : VerifyRunResult)
    (vs0 : VerifyStateFile)
    (h0 : vs0.state.iteration.getD 0 = 0) (hN : vs0.config.maxIterations.getD 10 = N)
    (hfail : r.passed = false) (hdis : iso.enabled = false) :
    (∀ (vs : VerifyStateFile) (iso2 : IsolationConfig) (rs : Bool) (u2 : String)
        (r2 : VerifyRunResult) (thg sr : Bool) (rpw : Nat) (sp : CliSpawnResult)
        (rev : VerifyRunResult),
      vs.config.maxIterations.getD 10 < vs.state.iteration.getD 0 + 1 →
      (mainStep false (some vs) iso2 rs u2 r2 thg sr rpw sp rev).verifyRuns = 0 ∧
      (mainStep false (some vs) iso2 rs u2 r2 thg sr rpw sp rev).stateFile = none ∧
      (mainStep false (some vs) iso2 rs u2 r2 thg sr rpw sp rev).decision =
        HookDecision.allowStop (some (maxIterationsMessage (vs.config.maxIterations.getD 10)))) ∧
    (∀ k, k < N →
      (inContextStep iso u r (inContextTrace iso u r (some vs0) k)).verifyRuns = 1 ∧
      (inContextStep iso u r (inContextTrace iso u r (some vs0) k)).decision.isAllow = false) ∧
    ((inContextStep iso u r (inContextTrace iso u r (some vs0) N)).stateFile = none ∧
     (inContextStep iso u r (inContextTrace iso u r (some vs0) N)).verifyRuns = 0 ∧
     (inContextStep iso u r (inContextTrace iso u r (some vs0) N)).decision =
       HookDecision.allowStop (some (maxIterationsMessage N))) ∧
    inContextTotalRuns iso u r (some vs0) (N + 1) = N := by
  refine ⟨?_, ?_, ?_, ?_⟩
  · intro vs iso2 rs u2 r2 thg sr rpw sp rev hgt
    rw [mainStep_exhaust vs iso2 rs u2 r2 thg sr rpw sp rev hgt]
    exact ⟨rfl, rfl, rfl⟩
  · intro k hk
    obtain ⟨vs, htr, hcfg, hiter, _⟩ :=
      inContextTrace_spec iso u r vs0 N h0 hN hfail hdis k (Nat.le_of_lt hk)
    have hle : vs.state.iteration.getD 0 + 1 ≤ vs.config.maxIterations.getD 10 := by
      rw [hiter, hcfg, hN]; exact hk
    rw [htr, inContextStep_block iso u r vs hfail hdis hle]
    exact ⟨rfl, rfl⟩
  · obtain ⟨vs, htr, hcfg, hiter, _⟩ :=
      inContextTrace_spec iso u r vs0 N h0 hN hfail hdis N (Nat.le_refl N)
    have hgt : vs.config.maxIterations.getD 10 < vs.state.iteration.getD 0 + 1 := by
      rw [hiter, hcfg, hN]; exact Nat.lt_succ_self N
    have hmax : vs.config.maxIterations.getD 10 = N := by rw [hcfg, hN]
    rw [htr]
    show (mainStep false (some vs) iso false u r false false 0 dummySpawnRes r).stateFile
          = none ∧
        (mainStep false (some vs) iso false u r false false 0 dummySpawnRes r).verifyRuns = 0 ∧
        (mainStep false (some vs) iso false u r false false 0 dummySpawnRes r).decision =
          HookDecision.allowStop (some (maxIterationsMessage N))
    rw [mainStep_exhaust vs iso false u r false false 0 dummySpawnRes r hgt, hmax]
    exact ⟨rfl, rfl, rfl⟩
  · obtain ⟨vs, htr, hcfg, hiter, _⟩ :=
      inContextTrace_spec iso u r vs0 N h0 hN hfail hdis N (Nat.le_refl N)
    have hgt : vs.config.maxIterations.getD 10 < vs.state.iteration.getD 0 + 1 := by
      rw [hiter, hcfg, hN]; exact Nat.lt_succ_self N
    show inContextTotalRuns iso u r (some vs0) N +
        (inContextStep iso u r (inContextTrace iso u r (some vs0) N)).verifyRuns = N
    rw [inContextTotalRuns_spec iso u r vs0 N h0 hN hfail hdis N (Nat.le_refl N), htr]
    show N + (mainStep false (some vs) iso false u r false false 0 dummySpawnRes r).verifyRuns = N
    rw [mainStep_exhaust vs iso false u r false false 0 dummySpawnRes r hgt]
    rfl

/-- C2 witness: with `maxIterations = 2` and an always-failing command, the
third invocation deletes the state file without running verification, and
exactly two verification executions happen in total. -/
theorem c2_witness :
    vsTwoIter.state.iteration.getD 0 = 0 ∧
    vsTwoIter.config.maxIterations.getD 10 = 2 ∧
    rFailFix.passed = false ∧ isoOff.enabled = false ∧
    (inContextStep isoOff "u1" rFailFix
        (inContextTrace isoOff "u1" rFailFix (some vsTwoIter) 2)).stateFile = none ∧
    inContextTotalRuns isoOff "u1" rFailFix (some vsTwoIter) 3 = 2 :=
  ⟨rfl, rfl, rfl, rfl,
   (c2_exhaustion 2 isoOff "u1" rFailFix vsTwoIter rfl rfl rfl rfl).2.2.1.1,
   (c2_exhaustion 2 isoOff "u1" rFailFix vsTwoIter rfl rfl rfl rfl).2.2.2⟩

/-- C3 counterexample: when the persisted verification state carries no
sessionId, `main` generates a fresh id on EVERY invocation and never writes it
back to the state file (the state save of lines 419-423 sets only `iteration`
and `lastResult`), so the second invocation over the very state the first one
persisted observes a different sessionId — refuting "every invocation after
the first observes the same sessionId the first invocation established". -/
theorem c3_counterexample :
    (inContextStep isoOff "aaaaaaaa" rFailFix (some vsNoSid)).observedSessionId =
      some "ralph-aaaaaaaa" ∧
    (inContextStep isoOff "bbbbbbbb" rFailFix
        ((inContextStep isoOff "aaaaaaaa" rFailFix (some vsNoSid)).stateFile)).observedSessionId =
      some "ralph-bbbbbbbb" ∧
    ("ralph-aaaaaaaa" : String) ≠ "ralph-bbbbbbbb" := by
  refine ⟨?_, ?_, by decide⟩ <;> decide

/-- C3 (amended): the sessionId is stable across invocations ONLY when the
upstream writer persisted one — if the state file carries a non-empty
`sessionId`, every invocation observes exactly that id (never a fresh one),
and every state file the controller writes back still carries it, so all
later invocations observe the same id; when the state file carries none, each
invocation generates a fresh id (stable only within that invocation,
including its isolated iteration). -/
theorem c3_amended (vs : VerifyStateFile) (sid : String) (u : String)
    (iso : IsolationConfig) (ralphSpawned : Bool) (r : VerifyRunResult)
    (thg sr : Bool) (rpw : Nat) (spawnRes : CliSpawnResult) (reverify : VerifyRunResult)
    (hsid : vs.state.sessionId = some sid) (hne : sid ≠ "") :
    ensure_ralph_session_id vs (genSessionId u) = sid ∧
    (mainStep false (some vs) iso ralphSpawned u r thg sr rpw spawnRes
        reverify).observedSessionId = some sid ∧
    (∀ vs2, (mainStep false (some vs) iso ralphSpawned u r thg sr rpw spawnRes
        reverify).stateFile = some vs2 → vs2.state.sessionId = some sid) := by
  have hens : ensure_ralph_session_id vs (genSessionId u) = sid := by
    unfold ensure_ralph_session_id pyOrOptStr
    rw [hsid]
    simp [hne]
  refine ⟨hens, ?_, ?_⟩
  · unfold mainStep
    simp only [Bool.false_eq_true, if_false, hens]
    split_ifs <;> rfl
  · intro vs2 h
    unfold mainStep at h
    simp only [Bool.false_eq_true, if_false] at h
    split_ifs at h <;>
      · injection h with h2
        rw [← h2]
        simp [saveAfterVerify, hsid]

/-- C3 witness: with a persisted sessionId the invocation observes exactly
that id, and the state it writes back still carries it. -/
theorem c3_witness :
    vsWithSid.state.sessionId = some "ralph-fixed123" ∧
    ("ralph-fixed123" : String) ≠ "" ∧
    ensure_ralph_session_id vsWithSid (genSessionId "zzzzzzzz") = "ralph-fixed123" ∧
    (mainStep false (some vsWithSid) isoOff false "zzzzzzzz" rFailFix false false 0
        dummySpawnRes rFailFix).observedSessionId = some "ralph-fixed123" :=
  ⟨rfl, by decide,
   (c3_amended vsWithSid "ralph-fixed123" "zzzzzzzz" isoOff false rFailFix false false 0
      dummySpawnRes rFailFix rfl (by decide)).1,
   (c3_amended vsWithSid "ralph-fixed123" "zzzzzzzz" isoOff false rFailFix false false 0
      dummySpawnRes rFailFix rfl (by decide)).2.1⟩

/- ===== basic lemmas ===== -/
@[simp] theorem isPrefixB_nil (s : Chars) : isPrefixB [] s = true := rfl

@[simp] theorem isPrefixB_cons_nil (a : Char) (p : Chars) :
    isPrefixB (a :: p) [] = false := rfl

@[simp] theorem isPrefixB_cons_cons (a b : Char) (p t : Chars) :
    isPrefixB (a :: p) (b :: t) = (a == b && isPrefixB p t) := rfl

theorem isPrefixB_append_self (x y : Chars) : isPrefixB x (x ++ y) = true := by
  induction x with
  | nil => rfl
  | cons a as ih => simp [ih]

theorem mPlain_self (hdr after : Chars) :
    mPlain hdr (hdr ++ after) = some after := by
  unfold mPlain
  rw [isPrefixB_append_self]
  simp [List.drop_left]

/-- One scan step over a position where the matcher fails. -/
theorem scanMatch_step_none (m : Chars → Option Chars) (c : Char) (t : Chars)
    (h : m (c :: t) = none) : scanMatch m (c :: t) = scanMatch m t := by
  conv_lhs => unfold scanMatch
  rw [h]

/-- Scanning skips any `#`-free prefix when the matcher only fires on `#`. -/
theorem scanMatch_skip_hashfree (m : Chars → Option Chars)
    (hm : ∀ (c : Char) (t : Chars), c ≠ '#' → m (c :: t) = none) :
    ∀ (u s : Chars), (∀ c ∈ u, c ≠ '#') → scanMatch m (u ++ s) = scanMatch m s := by
  intro u
  induction u with
  | nil => intro s _; rfl
  | cons a as ih =>
    intro s hu
    have ha : a ≠ '#' := hu a (List.mem_cons_self a as)
    rw [List.cons_append, scanMatch_step_none m a (as ++ s) (hm a (as ++ s) ha)]
    exact ih s (fun c hc => hu c (List.mem_cons_of_mem a hc))

/-- A successful match with nonempty remainder stops the scan. -/
theorem scanMatch_found (m : Chars → Option Chars) (c : Char) (t after : Chars)
    (h : m (c :: t) = some after) (hne : after ≠ []) :
    scanMatch m (c :: t) = some after := by
  unfold scanMatch
  rw [h]
  simp [hne]

/-- `mPlain` with a `#`-headed pattern fails on any other head character. -/
theorem mPlain_hash_head (hdr : Chars) (c : Char) (t : Chars) (hc : c ≠ '#') :
    mPlain ('#' :: hdr) (c :: t) = none := by
  unfold mPlain
  simp [isPrefixB, hc, Ne.symm hc]

/-- Capture runs through a `#`-free content block and stops exactly at the
separator preceding the next header. -/
theorem captureLazy_through (R : Chars) :
    ∀ (c : Chars), (∀ x ∈ c, x ≠ '#') →
      captureLazy (c ++ ('\n' :: '\n' :: '#' :: '#' :: ' ' :: R)) = c ++ ['\n'] := by
  intro c
  induction c with
  | nil =>
    intro _
    simp only [List.nil_append]
    unfold captureLazy
    simp [stopPat, strChars, isPrefixB]
  | cons a as ih =>
    intro hc
    have has : ∀ x ∈ as, x ≠ '#' := fun x hx => hc x (List.mem_cons_of_mem a hx)
    rw [List.cons_append]
    unfold captureLazy
    have hguard : isPrefixB stopPat (as ++ ('\n' :: '\n' :: '#' :: '#' :: ' ' :: R)) = false := by
      cases as with
      | nil => simp [stopPat, strChars, isPrefixB]
      | cons b bs =>
        cases bs with
        | nil =>
          have hb : b ≠ '#' := has b (List.mem_cons_self b [])
          simp [stopPat, strChars, isPrefixB, hb]
        | cons d ds =>
          have hd : d ≠ '#' := has d (List.mem_cons_of_mem b (List.mem_cons_self d ds))
          simp [stopPat, strChars, isPrefixB, hd, Ne.symm hd]
    rw [hguard]
    simp only [if_false, Bool.false_eq_true]
    rw [ih has]
    rfl

/-- Capture of the final section (no following header): consumes everything. -/
theorem captureLazy_all (c : Chars) (hc : ∀ x ∈ c, x ≠ '#') :
    captureLazy c = c := by
  induction c with
  | nil => rfl
  | cons a as ih =>
    have has : ∀ x ∈ as, x ≠ '#' := fun x hx => hc x (List.mem_cons_of_mem a hx)
    unfold captureLazy
    have hguard : isPrefixB stopPat as = false := by
      cases as with
      | nil => simp [stopPat, strChars, isPrefixB]
      | cons b bs =>
        cases bs with
        | nil => simp [stopPat, strChars, isPrefixB]
        | cons d ds =>
          have hd : d ≠ '#' := has d (List.mem_cons_of_mem b (List.mem_cons_self d ds))
          simp [stopPat, strChars, isPrefixB, hd, Ne.symm hd]
    rw [hguard]
    simp only [if_false, Bool.false_eq_true]
    rw [ih has]

/-- Scanning for `\n---` passes over a newline-free block when the following
text does not start with the marker. -/
theorem splitAtMarker_skip (L : Chars) : ∀ (s : Chars), (∀ c ∈ L, c ≠ '\n') →
    isPrefixB fmMarker s = false →
    splitAtMarker (L ++ s) = (splitAtMarker s).map (fun p => (L ++ p.1, p.2)) := by
  induction L with
  | nil =>
    intro s _ _
    simp only [List.nil_append]
    cases h : splitAtMarker s with
    | none => rfl
    | some p => rfl
  | cons a as ih =>
    intro s hL hnp
    have has : ∀ c ∈ as, c ≠ '\n' := fun c hc => hL c (List.mem_cons_of_mem a hc)
    rw [List.cons_append]
    conv_lhs => unfold splitAtMarker
    have hguard : isPrefixB fmMarker (as ++ s) = false := by
      cases as with
      | nil => simpa using hnp
      | cons b bs =>
        have hb : b ≠ '\n' := has b (List.mem_cons_self b bs)
        simp [fmMarker, strChars, isPrefixB, hb, Ne.symm hb]
    rw [hguard]
    simp only [Bool.false_eq_true, if_false]
    rw [ih s has hnp]
    cases h : splitAtMarker s with
    | none => rfl
    | some p => rfl

/-- Scanning a nonempty newline-free block followed by the marker captures
exactly that block. -/
theorem splitAtMarker_line (L : Chars) : ∀ (rest : Chars), L ≠ [] →
    (∀ c ∈ L, c ≠ '\n') →
    splitAtMarker (L ++ (fmMarker ++ rest)) = some (L, rest) := by
  induction L with
  | nil => intro rest h _; exact absurd rfl h
  | cons a as ih =>
    intro rest _ hL
    have has : ∀ c ∈ as, c ≠ '\n' := fun c hc => hL c (List.mem_cons_of_mem a hc)
    rw [List.cons_append]
    conv_lhs => unfold splitAtMarker
    cases as with
    | nil =>
      simp only [List.nil_append]
      rw [isPrefixB_append_self]
      simp [fmMarker, strChars]
    | cons b bs =>
      have hb : b ≠ '\n' := has b (List.mem_cons_self b bs)
      have hguard : isPrefixB fmMarker ((b :: bs) ++ (fmMarker ++ rest)) = false := by
        simp [fmMarker, strChars, isPrefixB, hb, Ne.symm hb]
      rw [hguard]
      simp only [Bool.false_eq_true, if_false]
      rw [ih rest (by simp) has]

/-- Scanning an intercalated list of nonempty, newline-free lines whose heads
are not dashes, followed by the marker, captures the whole intercalation. -/
theorem splitAtMarker_lines (Ls : List Chars) : ∀ (rest : Chars), Ls ≠ [] →
    (∀ L ∈ Ls, L ≠ [] ∧ (∀ c ∈ L, c ≠ '\n') ∧ (∀ c, L.head? = some c → c ≠ '-')) →
    splitAtMarker (List.intercalate ['\n'] Ls ++ (fmMarker ++ rest)) =
      some (List.intercalate ['\n'] Ls, rest) := by
  induction Ls with
  | nil => intro rest h _; exact absurd rfl h
  | cons L Ls2 ih =>
    intro rest _ hLs
    obtain ⟨hL1, hL2, _⟩ := hLs L (List.mem_cons_self L Ls2)
    cases Ls2 with
    | nil =>
      have hintc : List.intercalate ['\n'] [L] = L := by
        simp [List.intercalate]
      rw [hintc]
      exact splitAtMarker_line L rest hL1 hL2
    | cons L2 Ls3 =>
      obtain ⟨hM1, hM2, hM3⟩ := hLs L2 (List.mem_cons_of_mem L (List.mem_cons_self L2 Ls3))
      have hintc : List.intercalate ['\n'] (L :: L2 :: Ls3) =
          L ++ '\n' :: List.intercalate ['\n'] (L2 :: Ls3) := by
        simp [List.intercalate, List.intersperse_cons_cons]
      have hz : ∃ z, List.intercalate ['\n'] (L2 :: Ls3) = L2 ++ z := by
        cases Ls3 with
        | nil => exact ⟨[], by simp [List.intercalate]⟩
        | cons M Ms =>
          exact ⟨'\n' :: List.intercalate ['\n'] (M :: Ms),
            by simp [List.intercalate, List.intersperse_cons_cons]⟩
      obtain ⟨z, hzeq⟩ := hz
      obtain ⟨c, t, hL2ct⟩ : ∃ c t, L2 = c :: t := by
        cases hL2' : L2 with
        | nil => exact absurd hL2' hM1
        | cons c t => exact ⟨c, t, rfl⟩
      have hchead : c ≠ '-' := hM3 c (by rw [hL2ct]; rfl)
      have hcnl : c ≠ '\n' := hM2 c (by rw [hL2ct]; exact List.mem_cons_self c t)
      have hie : List.intercalate ['\n'] (L2 :: Ls3) = c :: (t ++ z) := by
        rw [hzeq, hL2ct, List.cons_append]
      rw [hintc, List.append_assoc, List.cons_append]
      have hskip := splitAtMarker_skip L
        ('\n' :: (List.intercalate ['\n'] (L2 :: Ls3) ++ (fmMarker ++ rest))) hL2
        (by rw [hie, List.cons_append]
            simp [fmMarker, strChars, isPrefixB, hchead, Ne.symm hchead])
      have hstep : splitAtMarker
          ('\n' :: (List.intercalate ['\n'] (L2 :: Ls3) ++ (fmMarker ++ rest))) =
          some ('\n' :: List.intercalate ['\n'] (L2 :: Ls3), rest) := by
        conv_lhs => unfold splitAtMarker
        have hguard : isPrefixB fmMarker
            (List.intercalate ['\n'] (L2 :: Ls3) ++ (fmMarker ++ rest)) = false := by
          rw [hie, List.cons_append]
          simp [fmMarker, strChars, isPrefixB, hcnl, Ne.symm hcnl]
        rw [hguard]
        simp only [Bool.false_eq_true, if_false]
        rw [ih rest (by simp) (fun M hM => hLs M (List.mem_cons_of_mem L hM))]
      rw [hskip, hstep]
      rfl

/- ===== trimming ===== -/
theorem dropWhile_id_of_head (l : Chars)
    (h : ∀ x, l.head? = some x → isPyWs x = false) :
    l.dropWhile isPyWs = l := by
  cases l with
  | nil => rfl
  | cons a as =>
    rw [List.dropWhile_cons, h a rfl]
    simp

/-- `str.strip()` is the identity on text with no leading/trailing
whitespace. -/
theorem trimChars_clean (c : Chars)
    (hh : ∀ x, c.head? = some x → isPyWs x = false)
    (hl : ∀ x, c.getLast? = some x → isPyWs x = false) :
    trimChars c = c := by
  unfold trimChars
  rw [dropWhile_id_of_head c hh,
      dropWhile_id_of_head c.reverse (by rw [List.head?_reverse]; exact hl),
      List.reverse_reverse]

/-- `str.strip()` of a captured section (content plus the lookahead newline)
recovers the content exactly. -/
theorem trimChars_capture (c : Chars) (hne : c ≠ [])
    (hh : ∀ x, c.head? = some x → isPyWs x = false)
    (hl : ∀ x, c.getLast? = some x → isPyWs x = false) :
    trimChars (c ++ ['\n']) = c := by
  unfold trimChars
  have h1 : (c ++ ['\n']).dropWhile isPyWs = c ++ ['\n'] := by
    apply dropWhile_id_of_head
    intro x hx
    cases c with
    | nil => exact absurd rfl hne
    | cons a as =>
      rw [List.cons_append] at hx
      simp only [List.head?_cons, Option.some.injEq] at hx
      rw [← hx]
      exact hh a rfl
  rw [h1, List.reverse_append]
  simp only [List.reverse_singleton, List.singleton_append]
  rw [List.dropWhile_cons]
  have : isPyWs '\n' = true := by decide
  rw [this]
  simp only [if_true]
  rw [dropWhile_id_of_head c.reverse (by rw [List.head?_reverse]; exact hl),
      List.reverse_reverse]

theorem digitVal_digitChar (d : Nat) (h : d < 10) : digitVal (digitChar d) = d := by
  interval_cases d <;> rfl

theorem digitChar_isDigit (d : Nat) (h : d < 10) : (digitChar d).isDigit = true := by
  interval_cases d <;> decide

theorem charsToNat_append_digit (a : Chars) (c : Char) :
    charsToNat (a ++ [c]) = charsToNat a * 10 + digitVal c := by
  unfold charsToNat
  rw [List.foldl_append]
  rfl

theorem natDigitsRev_mem_digit :
    ∀ (fuel n : Nat), ∀ x ∈ natDigitsRev fuel n, ∃ d, d < 10 ∧ x = digitChar d := by
  intro fuel
  induction fuel with
  | zero => intro n x hx; simp [natDigitsRev] at hx
  | succ f ih =>
    intro n x hx
    unfold natDigitsRev at hx
    by_cases hn : n = 0
    · simp [hn] at hx
    · rw [if_neg hn] at hx
      rcases List.mem_cons.mp hx with h | h
      · exact ⟨n % 10, Nat.mod_lt n (by omega), h⟩
      · exact ih (n / 10) x h

theorem charsToNat_natDigitsRev :
    ∀ (fuel n : Nat), n ≤ fuel → charsToNat (natDigitsRev fuel n).reverse = n := by
  intro fuel
  induction fuel with
  | zero =>
    intro n hn
    interval_cases n
    rfl
  | succ f ih =>
    intro n hn
    unfold natDigitsRev
    by_cases hn0 : n = 0
    · simp [hn0, charsToNat]
    · rw [if_neg hn0, List.reverse_cons, charsToNat_append_digit,
          ih (n / 10) (by omega), digitVal_digitChar (n % 10) (Nat.mod_lt n (by omega))]
      omega

/-- Parsing the decimal rendering recovers the number. -/
theorem charsToNat_natToChars (n : Nat) : charsToNat (natToChars n) = n := by
  unfold natToChars
  by_cases hn : n = 0
  · simp [hn]; rfl
  · rw [if_neg hn]
    exact charsToNat_natDigitsRev (n + 1) n (Nat.le_succ n)

/-- Every character of the decimal rendering is a digit. -/
theorem natToChars_digits (n : Nat) : ∀ x ∈ natToChars n, x.isDigit = true := by
  unfold natToChars
  by_cases hn : n = 0
  · simp [hn]
  · rw [if_neg hn]
    intro x hx
    rw [List.mem_reverse] at hx
    obtain ⟨d, hd, rfl⟩ := natDigitsRev_mem_digit (n + 1) n x hx
    exact digitChar_isDigit d hd

/-- The decimal rendering is nonempty. -/
theorem natToChars_ne_nil (n : Nat) : natToChars n ≠ [] := by
  unfold natToChars
  by_cases hn : n = 0
  · simp [hn]
  · rw [if_neg hn]
    unfold natDigitsRev
    rw [if_neg hn]
    simp

/- ===== extraction machinery ===== -/
theorem sectionOK_ne_nil {s : Chars} (h : sectionOK s = true) : s ≠ [] := by
  intro hnil
  rw [hnil] at h
  simp [sectionOK] at h

theorem sectionOK_no_hash {s : Chars} (h : sectionOK s = true) :
    ∀ c ∈ s, c ≠ '#' := by
  unfold sectionOK at h
  simp only [Bool.and_eq_true] at h
  have := h.1.1.2
  rw [List.all_eq_true] at this
  intro c hc
  have hb := this c hc
  simpa using hb

theorem sectionOK_head {s : Chars} (h : sectionOK s = true) :
    ∀ x, s.head? = some x → isPyWs x = false := by
  unfold sectionOK at h
  simp only [Bool.and_eq_true] at h
  intro x hx
  have := h.1.2
  rw [hx] at this
  simpa using this

theorem sectionOK_last {s : Chars} (h : sectionOK s = true) :
    ∀ x, s.getLast? = some x → isPyWs x = false := by
  unfold sectionOK at h
  simp only [Bool.and_eq_true] at h
  intro x hx
  have := h.2
  rw [hx] at this
  simpa using this

theorem yamlSafeChar_ne_hash {c : Char} (h : yamlSafeChar c = true) : c ≠ '#' := by
  intro hc
  rw [hc] at h
  simp [yamlSafeChar] at h

theorem yamlStrOK_no_hash {s : Chars} (h : yamlStrOK s = true) :
    ∀ c ∈ s, c ≠ '#' := by
  unfold yamlStrOK at h
  simp only [Bool.and_eq_true] at h
  have := h.1.1.2
  rw [List.all_eq_true] at this
  intro c hc
  exact yamlSafeChar_ne_hash (this c hc)

theorem yamlStrOK_ne_nil {s : Chars} (h : yamlStrOK s = true) : s ≠ [] := by
  intro hnil
  rw [hnil] at h
  simp [yamlStrOK] at h

theorem isDigit_ne_hash {c : Char} (h : c.isDigit = true) : c ≠ '#' := by
  intro hc
  rw [hc] at h
  simp [Char.isDigit] at h

/-- Skipping one `## Name\n\n` header (or any `##`-headed piece) that the
matcher rejects at its two `#` positions. -/
theorem scanMatch_skip_header (m : Chars → Option Chars)
    (hm : ∀ (c : Char) (t : Chars), c ≠ '#' → m (c :: t) = none)
    (u s : Chars) (hu : ∀ c ∈ u, c ≠ '#')
    (h0 : m ('#' :: '#' :: (u ++ s)) = none)
    (h1 : m ('#' :: (u ++ s)) = none) :
    scanMatch m ('#' :: '#' :: u ++ s) = scanMatch m s := by
  have e1 : ('#' :: '#' :: u) ++ s = '#' :: ('#' :: (u ++ s)) := by simp
  rw [e1, scanMatch_step_none m '#' ('#' :: (u ++ s)) h0,
      scanMatch_step_none m '#' (u ++ s) h1]
  exact scanMatch_skip_hashfree m hm u s hu

/-- `mPlain` only fires on `#` when its pattern starts with `##`. -/
theorem mPlain_hdr_hash (name : Chars) :
    ∀ (c : Char) (t : Chars), c ≠ '#' →
      mPlain (hdrC name) (c :: t) = none := by
  intro c t hc
  have e : hdrC name =
      '#' :: ('#' :: ' ' :: (name ++ strChars "\n\n")) := by
    simp [hdrC, strChars]
  rw [e]
  exact mPlain_hash_head _ c t hc

/-- `matchLFHeaderAt` only fires on `#`. -/
theorem matchLF_hash (c : Char) (t : Chars) (hc : c ≠ '#') :
    matchLFHeaderAt (c :: t) = none := by
  unfold matchLFHeaderAt
  have e : lfPre = '#' :: strChars "# Last Failure (Iteration " := rfl
  rw [e]
  simp [isPrefixB, hc, Ne.symm hc]

/-- The generic section-extraction lemma: the body is
`A ++ "## Name\n\n" ++ c ++ Q` where the scan skips `A`, the content `c` is a
clean section, and `Q` either is empty or starts with the separator and the
next header. -/
theorem extract_section_at (name : Chars) (A c Q : Chars)
    (hA : ∀ s, scanMatch (mPlain (hdrC name)) (A ++ s) =
      scanMatch (mPlain (hdrC name)) s)
    (hc : sectionOK c = true)
    (hQ : Q = [] ∨ ∃ R, Q = '\n' :: '\n' :: '#' :: '#' :: ' ' :: R) :
    extract_section name (A ++ (hdrC name ++ (c ++ Q))) = c := by
  unfold extract_section
  rw [hA]
  have hne : c ++ Q ≠ [] := by
    intro h
    exact sectionOK_ne_nil hc (List.append_eq_nil.mp h).1
  have hfound : scanMatch (mPlain (hdrC name))
      (hdrC name ++ (c ++ Q)) = some (c ++ Q) := by
    have e : hdrC name ++ (c ++ Q) =
        '#' :: ('#' :: ' ' :: ((name ++ strChars "\n\n") ++ (c ++ Q))) := by
      simp [hdrC, strChars]
    have hm : mPlain (hdrC name) (hdrC name ++ (c ++ Q)) = some (c ++ Q) :=
      mPlain_self (hdrC name) (c ++ Q)
    rw [e] at hm ⊢
    exact scanMatch_found _ _ _ _ hm hne
  rw [hfound]
  show trimChars (captureLazy (c ++ Q)) = c
  rcases hQ with hQ | ⟨R, hQ⟩
  · rw [hQ, List.append_nil, captureLazy_all c (sectionOK_no_hash hc)]
    exact trimChars_clean c (sectionOK_head hc) (sectionOK_last hc)
  · rw [hQ, captureLazy_through R c (sectionOK_no_hash hc)]
    exact trimChars_capture c (sectionOK_ne_nil hc) (sectionOK_head hc) (sectionOK_last hc)

/-- Composition of two scan-skip facts. -/
theorem skip_comp (m : Chars → Option Chars) (A B : Chars)
    (hA : ∀ s, scanMatch m (A ++ s) = scanMatch m s)
    (hB : ∀ s, scanMatch m (B ++ s) = scanMatch m s) :
    ∀ s, scanMatch m ((A ++ B) ++ s) = scanMatch m s := by
  intro s
  rw [List.append_assoc, hA, hB]

theorem takeWhile_digits_stop (d : Chars) (hd : ∀ x ∈ d, x.isDigit = true)
    (c : Char) (hc : c.isDigit = false) (r : Chars) :
    (d ++ c :: r).takeWhile Char.isDigit = d := by
  induction d with
  | nil => simp [List.takeWhile_cons, hc]
  | cons a as ih =>
    have ha : a.isDigit = true := hd a (List.mem_cons_self a as)
    rw [List.cons_append, List.takeWhile_cons, ha]
    simp only [if_true]
    rw [ih (fun x hx => hd x (List.mem_cons_of_mem a hx))]

/-- `matchLFHeaderAt` fires on the rendered Last-Failure header, returning
exactly the text after it. -/
theorem matchLF_found (digits after : Chars) (hne : digits ≠ [])
    (hd : ∀ x ∈ digits, x.isDigit = true) :
    matchLFHeaderAt (lfPre ++ (digits ++ (lfPost ++ after))) = some after := by
  unfold matchLFHeaderAt
  rw [isPrefixB_append_self]
  simp only [if_true, List.drop_left]
  have hstop : ((digits ++ (lfPost ++ after)).takeWhile Char.isDigit) = digits := by
    have e : lfPost ++ after = ')' :: (strChars "\n\n" ++ after) := by
      simp [lfPost, strChars]
    rw [e]
    exact takeWhile_digits_stop digits hd ')' (by decide) _
  rw [hstop]
  have hdrop : (digits ++ (lfPost ++ after)).drop digits.length = lfPost ++ after :=
    List.drop_left digits (lfPost ++ after)
  rw [hdrop]
  rw [isPrefixB_append_self]
  simp only [hne, ne_eq, not_false_eq_true, true_and, if_true]
  have : (digits ++ (lfPost ++ after)).drop (digits.length + lfPost.length) = after := by
    rw [← List.drop_drop, List.drop_left, List.drop_left]
  rw [this]

/-- A rendered task document is the frontmatter block followed by the section
body. -/
theorem render_task_file_eq (t : TaskFile) :
    render_task_file t =
      (strChars "---\n" ++ yamlDumpFM t.metadata ++ strChars "---") ++ bodyChars t := by
  unfold render_task_file bodyChars
  by_cases hdiff : diffIncluded t <;>
    simp [hdiff, List.intercalate, List.intersperse, hdrC, sepC, lfPre, lfPost, strChars,
      List.append_assoc]

/- ===== reusable skip facts ===== -/
theorem skip_sepC (m : Chars → Option Chars)
    (hm : ∀ (c : Char) (t : Chars), c ≠ '#' → m (c :: t) = none) :
    ∀ s, scanMatch m (sepC ++ s) = scanMatch m s := by
  intro s
  apply scanMatch_skip_hashfree m hm sepC s
  decide

theorem skip_nohash (m : Chars → Option Chars)
    (hm : ∀ (c : Char) (t : Chars), c ≠ '#' → m (c :: t) = none)
    (u : Chars) (hu : ∀ c ∈ u, c ≠ '#') :
    ∀ s, scanMatch m (u ++ s) = scanMatch m s :=
  fun s => scanMatch_skip_hashfree m hm u s hu

theorem skip_hdrC_of (m : Chars → Option Chars)
    (hm : ∀ (c : Char) (t : Chars), c ≠ '#' → m (c :: t) = none)
    (nO : Chars) (hnO : ∀ c ∈ nO, c ≠ '#')
    (h0 : ∀ s, m ('#' :: '#' :: ((' ' :: (nO ++ strChars "\n\n")) ++ s)) = none)
    (h1 : ∀ s, m ('#' :: ((' ' :: (nO ++ strChars "\n\n")) ++ s)) = none) :
    ∀ s, scanMatch m (hdrC nO ++ s) = scanMatch m s := by
  intro s
  have e : hdrC nO ++ s = '#' :: '#' :: (' ' :: (nO ++ strChars "\n\n")) ++ s := by
    simp [hdrC, strChars]
  rw [e]
  have hu : ∀ c ∈ (' ' :: (nO ++ strChars "\n\n")), c ≠ '#' := by
    intro c hc
    rcases List.mem_cons.mp hc with h | h
    · rw [h]; decide
    · rcases List.mem_append.mp h with h2 | h2
      · exact hnO c h2
      · fin_cases h2 <;> decide
  exact scanMatch_skip_header m hm (' ' :: (nO ++ strChars "\n\n")) s hu (h0 s) (h1 s)

theorem skip_lfPre_of (m : Chars → Option Chars)
    (hm : ∀ (c : Char) (t : Chars), c ≠ '#' → m (c :: t) = none)
    (h0 : ∀ s, m ('#' :: '#' :: (strChars " Last Failure (Iteration " ++ s)) = none)
    (h1 : ∀ s, m ('#' :: (strChars " Last Failure (Iteration " ++ s)) = none) :
    ∀ s, scanMatch m (lfPre ++ s) = scanMatch m s := by
  intro s
  have e : lfPre ++ s = '#' :: '#' :: strChars " Last Failure (Iteration " ++ s := by
    simp [lfPre, strChars]
  rw [e]
  apply scanMatch_skip_header m hm (strChars " Last Failure (Iteration ") s _ (h0 s) (h1 s)
  decide

/-- Well-formedness components, unpacked. -/
theorem wellFormedTask_parts {t : TaskFile} (h : wellFormedTask t = true) :
    yamlStrOK t.metadata.id = true ∧ yamlStrOK t.metadata.created = true ∧
    yamlStrOK t.metadata.original_request = true ∧
    yamlStrOK t.metadata.verification_command = true ∧
    yamlStrOK t.metadata.working_directory = true ∧
    1 ≤ t.metadata.current_iteration ∧ 0 ≤ t.metadata.max_iterations ∧
    0 ≤ t.metadata.timeout_seconds ∧
    sectionOK t.session_story = true ∧ sectionOK t.current_state = true ∧
    sectionOK t.last_failure = true ∧ sectionOK t.what_to_try = true ∧
    sectionOK t.instructions = true ∧
    (t.diff_summary.isEmpty = true ∨ sectionOK t.diff_summary = true) := by
  unfold wellFormedTask at h
  simp only [Bool.and_eq_true, decide_eq_true_eq, Bool.or_eq_true] at h
  obtain ⟨⟨⟨⟨⟨⟨⟨⟨⟨⟨⟨⟨⟨h1, h2⟩, h3⟩, h4⟩, h5⟩, h6⟩, h7⟩, h8⟩, h9⟩, h10⟩, h11⟩, h12⟩, h13⟩, h14⟩ := h
  exact ⟨h1, h2, h3, h4, h5, h6, h7, h8, h9, h10, h11, h12, h13, h14⟩

/-- Digit strings are `#`-free. -/
theorem digits_no_hash (n : Nat) : ∀ c ∈ natToChars n, c ≠ '#' :=
  fun c hc => isDigit_ne_hash (natToChars_digits n c hc)

theorem intToChars_nonneg (i : Int) (h : 0 ≤ i) : intToChars i = natToChars i.toNat := by
  unfold intToChars
  rw [if_neg (by omega)]

/- ===== found/capture lemmas ===== -/
/-- The scan stops at the genuine header occurrence. -/
theorem scanMatch_found_hdr (name c Q : Chars) (hne : c ≠ []) :
    scanMatch (mPlain (hdrC name)) (hdrC name ++ (c ++ Q)) = some (c ++ Q) := by
  have e : hdrC name ++ (c ++ Q) =
      '#' :: ('#' :: ' ' :: ((name ++ strChars "\n\n") ++ (c ++ Q))) := by
    simp [hdrC, strChars]
  have hm : mPlain (hdrC name) (hdrC name ++ (c ++ Q)) = some (c ++ Q) :=
    mPlain_self (hdrC name) (c ++ Q)
  rw [e] at hm ⊢
  apply scanMatch_found _ _ _ _ hm
  intro h
  exact hne (List.append_eq_nil.mp h).1

/-- Capture-and-strip when the next block is a separator plus plain header. -/
theorem trim_capture_sep_hdr (c : Chars) (hc : sectionOK c = true) (n X : Chars) :
    trimChars (captureLazy (c ++ (sepC ++ (hdrC n ++ X)))) = c := by
  have e : sepC ++ (hdrC n ++ X) =
      '\n' :: '\n' :: '#' :: '#' :: ' ' :: (n ++ (strChars "\n\n" ++ X)) := by
    simp [sepC, hdrC, strChars]
  rw [e, captureLazy_through _ c (sectionOK_no_hash hc)]
  exact trimChars_capture c (sectionOK_ne_nil hc) (sectionOK_head hc) (sectionOK_last hc)

/-- Capture-and-strip when the next block is the Last-Failure header. -/
theorem trim_capture_sep_lf (c : Chars) (hc : sectionOK c = true) (X : Chars) :
    trimChars (captureLazy (c ++ (sepC ++ (lfPre ++ X)))) = c := by
  have e : sepC ++ (lfPre ++ X) =
      '\n' :: '\n' :: '#' :: '#' :: ' ' :: (strChars "Last Failure (Iteration " ++ X) := by
    simp [sepC, lfPre, strChars]
  rw [e, captureLazy_through _ c (sectionOK_no_hash hc)]
  exact trimChars_capture c (sectionOK_ne_nil hc) (sectionOK_head hc) (sectionOK_last hc)

/-- Capture-and-strip of the final section. -/
theorem trim_capture_end (c : Chars) (hc : sectionOK c = true) :
    trimChars (captureLazy c) = c := by
  rw [captureLazy_all c (sectionOK_no_hash hc)]
  exact trimChars_clean c (sectionOK_head hc) (sectionOK_last hc)

/- ===== per-section extraction over the rendered body ===== -/
theorem extract_ss (t : TaskFile) (hwf : wellFormedTask t = true) :
    extract_section (strChars "Session Story") (bodyChars t) = t.session_story := by
  obtain ⟨_, _, hog, _, _, _, _, _, hss, _, _, _, _, _⟩ := wellFormedTask_parts hwf
  have hm := mPlain_hdr_hash (strChars "Session Story")
  have hOGskip := skip_hdrC_of _ hm (strChars "Original Goal") (by decide)
    (by intro s; simp [mPlain, hdrC, strChars, isPrefixB])
    (by intro s; simp [mPlain, hdrC, strChars, isPrefixB])
  have hogskip := skip_nohash _ hm t.metadata.original_request (yamlStrOK_no_hash hog)
  have hfound := fun Q => scanMatch_found_hdr (strChars "Session Story") t.session_story Q
    (sectionOK_ne_nil hss)
  unfold extract_section
  by_cases hdiff : diffIncluded t <;>
    · simp only [bodyChars, hdiff, if_true, if_false, Bool.false_eq_true, List.nil_append,
        List.append_assoc]
      rw [skip_sepC _ hm, hOGskip, hogskip, skip_sepC _ hm, hfound]
      first
        | exact trim_capture_sep_hdr t.session_story hss _ _
        | exact trim_capture_sep_lf t.session_story hss _

/-- A fully `#`-free text contains no header at all. -/
theorem scanMatch_none_nohash (m : Chars → Option Chars)
    (hm : ∀ (c : Char) (t : Chars), c ≠ '#' → m (c :: t) = none) :
    ∀ (u : Chars), (∀ c ∈ u, c ≠ '#') → scanMatch m u = none := by
  intro u
  induction u with
  | nil => intro _; rfl
  | cons a as ih =>
    intro hu
    rw [scanMatch_step_none m a as (hm a as (hu a (List.mem_cons_self a as)))]
    exact ih (fun c hc => hu c (List.mem_cons_of_mem a hc))

theorem extract_gs (t : TaskFile) (hwf : wellFormedTask t = true) :
    extract_section (strChars "Git-Style Change Summary") (bodyChars t) =
      (if diffIncluded t then t.diff_summary else []) := by
  obtain ⟨_, _, hog, _, _, hci, _, _, hss, hcs, hlf, hwt, hin, hds⟩ := wellFormedTask_parts hwf
  have hm := mPlain_hdr_hash (strChars "Git-Style Change Summary")
  have hOGskip := skip_hdrC_of _ hm (strChars "Original Goal") (by decide)
    (by intro s; simp [mPlain, hdrC, strChars, isPrefixB])
    (by intro s; simp [mPlain, hdrC, strChars, isPrefixB])
  have hSSskip := skip_hdrC_of _ hm (strChars "Session Story") (by decide)
    (by intro s; simp [mPlain, hdrC, strChars, isPrefixB])
    (by intro s; simp [mPlain, hdrC, strChars, isPrefixB])
  have hCSskip := skip_hdrC_of _ hm (strChars "Current State") (by decide)
    (by intro s; simp [mPlain, hdrC, strChars, isPrefixB])
    (by intro s; simp [mPlain, hdrC, strChars, isPrefixB])
  have hWTskip := skip_hdrC_of _ hm (strChars "What To Try Next") (by decide)
    (by intro s; simp [mPlain, hdrC, strChars, isPrefixB])
    (by intro s; simp [mPlain, hdrC, strChars, isPrefixB])
  have hINskip := skip_hdrC_of _ hm (strChars "Instructions") (by decide)
    (by intro s; simp [mPlain, hdrC, strChars, isPrefixB])
    (by intro s; simp [mPlain, hdrC, strChars, isPrefixB])
  have hLFskip := skip_lfPre_of _ hm
    (by intro s; simp [mPlain, hdrC, strChars, isPrefixB])
    (by intro s; simp [mPlain, hdrC, strChars, isPrefixB])
  have hogskip := skip_nohash _ hm t.metadata.original_request (yamlStrOK_no_hash hog)
  have hssskip := skip_nohash _ hm t.session_story (sectionOK_no_hash hss)
  have hcsskip := skip_nohash _ hm t.current_state (sectionOK_no_hash hcs)
  have hlfskip := skip_nohash _ hm t.last_failure (sectionOK_no_hash hlf)
  have hwtskip := skip_nohash _ hm t.what_to_try (sectionOK_no_hash hwt)
  have hdignh : ∀ c ∈ intToChars (t.metadata.current_iteration - 1), c ≠ '#' := by
    rw [intToChars_nonneg _ (by omega)]
    exact digits_no_hash _
  have hdigskip := skip_nohash _ hm (intToChars (t.metadata.current_iteration - 1)) hdignh
  have hpostskip := skip_nohash _ hm lfPost (by decide)
  unfold extract_section
  by_cases hdiff : diffIncluded t
  · have hdsOK : sectionOK t.diff_summary = true := by
      rcases hds with hds | hds
      · exfalso
        unfold diffIncluded at hdiff
        rw [hds] at hdiff
        simp at hdiff
      · exact hds
    rw [if_pos hdiff]
    have hfound := fun Q => scanMatch_found_hdr (strChars "Git-Style Change Summary")
      t.diff_summary Q (sectionOK_ne_nil hdsOK)
    simp only [bodyChars, hdiff, if_true, List.append_assoc]
    rw [skip_sepC _ hm, hOGskip, hogskip, skip_sepC _ hm, hSSskip, hssskip, skip_sepC _ hm,
        hfound]
    exact trim_capture_sep_hdr t.diff_summary hdsOK _ _
  · rw [if_neg hdiff]
    simp only [bodyChars, hdiff, if_false, Bool.false_eq_true, List.nil_append,
      List.append_assoc]
    rw [skip_sepC _ hm, hOGskip, hogskip, skip_sepC _ hm, hSSskip, hssskip, skip_sepC _ hm,
        hCSskip, hcsskip, skip_sepC _ hm, hLFskip, hdigskip, hpostskip, hlfskip,
        skip_sepC _ hm, hWTskip, hwtskip, skip_sepC _ hm, hINskip]
    rw [scanMatch_none_nohash _ hm t.instructions (sectionOK_no_hash hin)]

/-- The scan stops at the genuine Last-Failure header occurrence. -/
theorem scanMatch_found_lf (digits c Q : Chars) (hne : digits ≠ [])
    (hd : ∀ x ∈ digits, x.isDigit = true) (hcne : c ≠ []) :
    scanMatch matchLFHeaderAt (lfPre ++ (digits ++ (lfPost ++ (c ++ Q)))) = some (c ++ Q) := by
  have hmv := matchLF_found digits (c ++ Q) hne hd
  have e : lfPre ++ (digits ++ (lfPost ++ (c ++ Q))) =
      '#' :: (strChars "# Last Failure (Iteration " ++ (digits ++ (lfPost ++ (c ++ Q)))) := by
    simp [lfPre, strChars]
  rw [e] at hmv ⊢
  apply scanMatch_found _ _ _ _ hmv
  intro h
  exact hcne (List.append_eq_nil.mp h).1

/-- The scan stops at the final header of the document. -/
theorem scanMatch_found_hdr_end (name c : Chars) (hne : c ≠ []) :
    scanMatch (mPlain (hdrC name)) (hdrC name ++ c) = some c := by
  have hmv : mPlain (hdrC name) (hdrC name ++ c) = some c := mPlain_self (hdrC name) c
  have e : hdrC name ++ c = '#' :: ('#' :: ' ' :: ((name ++ strChars "\n\n") ++ c)) := by
    simp [hdrC, strChars]
  rw [e] at hmv ⊢
  exact scanMatch_found _ _ _ _ hmv hne

theorem extract_cs (t : TaskFile) (hwf : wellFormedTask t = true) :
    extract_section (strChars "Current State") (bodyChars t) = t.current_state := by
  obtain ⟨_, _, hog, _, _, _, _, _, hss, hcs, _, _, _, hds⟩ := wellFormedTask_parts hwf
  have hm := mPlain_hdr_hash (strChars "Current State")
  have hOGskip := skip_hdrC_of _ hm (strChars "Original Goal") (by decide)
    (by intro s; simp [mPlain, hdrC, strChars, isPrefixB])
    (by intro s; simp [mPlain, hdrC, strChars, isPrefixB])
  have hSSskip := skip_hdrC_of _ hm (strChars "Session Story") (by decide)
    (by intro s; simp [mPlain, hdrC, strChars, isPrefixB])
    (by intro s; simp [mPlain, hdrC, strChars, isPrefixB])
  have hGSskip := skip_hdrC_of _ hm (strChars "Git-Style Change Summary") (by decide)
    (by intro s; simp [mPlain, hdrC, strChars, isPrefixB])
    (by intro s; simp [mPlain, hdrC, strChars, isPrefixB])
  have hogskip := skip_nohash _ hm t.metadata.original_request (yamlStrOK_no_hash hog)
  have hssskip := skip_nohash _ hm t.session_story (sectionOK_no_hash hss)
  have hfound := fun Q => scanMatch_found_hdr (strChars "Current State") t.current_state Q
    (sectionOK_ne_nil hcs)
  unfold extract_section
  by_cases hdiff : diffIncluded t
  · have hdsOK : sectionOK t.diff_summary = true := by
      rcases hds with hds | hds
      · exfalso
        unfold diffIncluded at hdiff
        rw [hds] at hdiff
        simp at hdiff
      · exact hds
    have hdsskip := skip_nohash _ hm t.diff_summary (sectionOK_no_hash hdsOK)
    simp only [bodyChars, hdiff, if_true, List.append_assoc]
    rw [skip_sepC _ hm, hOGskip, hogskip, skip_sepC _ hm, hSSskip, hssskip, skip_sepC _ hm,
        hGSskip, hdsskip, skip_sepC _ hm, hfound]
    exact trim_capture_sep_lf t.current_state hcs _
  · simp only [bodyChars, hdiff, if_false, Bool.false_eq_true, List.nil_append,
      List.append_assoc]
    rw [skip_sepC _ hm, hOGskip, hogskip, skip_sepC _ hm, hSSskip, hssskip, skip_sepC _ hm,
        hfound]
    exact trim_capture_sep_lf t.current_state hcs _

theorem extract_lf (t : TaskFile) (hwf : wellFormedTask t = true) :
    extract_last_failure (bodyChars t) = t.last_failure := by
  obtain ⟨_, _, hog, _, _, hci, _, _, hss, hcs, hlf, _, _, hds⟩ := wellFormedTask_parts hwf
  have hm : ∀ (c : Char) (t2 : Chars), c ≠ '#' → matchLFHeaderAt (c :: t2) = none :=
    fun c t2 hc => matchLF_hash c t2 hc
  have hOGskip := skip_hdrC_of _ hm (strChars "Original Goal") (by decide)
    (by intro s; simp [matchLFHeaderAt, lfPre, strChars, isPrefixB])
    (by intro s; simp [matchLFHeaderAt, lfPre, strChars, isPrefixB])
  have hSSskip := skip_hdrC_of _ hm (strChars "Session Story") (by decide)
    (by intro s; simp [matchLFHeaderAt, lfPre, strChars, isPrefixB])
    (by intro s; simp [matchLFHeaderAt, lfPre, strChars, isPrefixB])
  have hGSskip := skip_hdrC_of _ hm (strChars "Git-Style Change Summary") (by decide)
    (by intro s; simp [matchLFHeaderAt, lfPre, strChars, isPrefixB])
    (by intro s; simp [matchLFHeaderAt, lfPre, strChars, isPrefixB])
  have hCSskip := skip_hdrC_of _ hm (strChars "Current State") (by decide)
    (by intro s; simp [matchLFHeaderAt, lfPre, strChars, isPrefixB])
    (by intro s; simp [matchLFHeaderAt, lfPre, strChars, isPrefixB])
  have hogskip := skip_nohash _ hm t.metadata.original_request (yamlStrOK_no_hash hog)
  have hssskip := skip_nohash _ hm t.session_story (sectionOK_no_hash hss)
  have hcsskip := skip_nohash _ hm t.current_state (sectionOK_no_hash hcs)
  have hdigeq : intToChars (t.metadata.current_iteration - 1) =
      natToChars (t.metadata.current_iteration - 1).toNat :=
    intToChars_nonneg _ (by omega)
  have hfound := fun Q => scanMatch_found_lf (intToChars (t.metadata.current_iteration - 1))
    t.last_failure Q
    (by rw [hdigeq]; exact natToChars_ne_nil _)
    (by rw [hdigeq]; exact natToChars_digits _)
    (sectionOK_ne_nil hlf)
  unfold extract_last_failure
  by_cases hdiff : diffIncluded t
  · have hdsOK : sectionOK t.diff_summary = true := by
      rcases hds with hds | hds
      · exfalso
        unfold diffIncluded at hdiff
        rw [hds] at hdiff
        simp at hdiff
      · exact hds
    have hdsskip := skip_nohash _ hm t.diff_summary (sectionOK_no_hash hdsOK)
    simp only [bodyChars, hdiff, if_true, List.append_assoc]
    rw [skip_sepC _ hm, hOGskip, hogskip, skip_sepC _ hm, hSSskip, hssskip, skip_sepC _ hm,
        hGSskip, hdsskip, skip_sepC _ hm, hCSskip, hcsskip, skip_sepC _ hm, hfound]
    exact trim_capture_sep_hdr t.last_failure hlf _ _
  · simp only [bodyChars, hdiff, if_false, Bool.false_eq_true, List.nil_append,
      List.append_assoc]
    rw [skip_sepC _ hm, hOGskip, hogskip, skip_sepC _ hm, hSSskip, hssskip, skip_sepC _ hm,
        hCSskip, hcsskip, skip_sepC _ hm, hfound]
    exact trim_capture_sep_hdr t.last_failure hlf _ _

theorem extract_wt (t : TaskFile) (hwf : wellFormedTask t = true) :
    extract_section (strChars "What To Try Next") (bodyChars t) = t.what_to_try := by
  obtain ⟨_, _, hog, _, _, hci, _, _, hss, hcs, hlf, hwt, _, hds⟩ := wellFormedTask_parts hwf
  have hm := mPlain_hdr_hash (strChars "What To Try Next")
  have hOGskip := skip_hdrC_of _ hm (strChars "Original Goal") (by decide)
    (by intro s; simp [mPlain, hdrC, strChars, isPrefixB])
    (by intro s; simp [mPlain, hdrC, strChars, isPrefixB])
  have hSSskip := skip_hdrC_of _ hm (strChars "Session Story") (by decide)
    (by intro s; simp [mPlain, hdrC, strChars, isPrefixB])
    (by intro s; simp [mPlain, hdrC, strChars, isPrefixB])
  have hGSskip := skip_hdrC_of _ hm (strChars "Git-Style Change Summary") (by decide)
    (by intro s; simp [mPlain, hdrC, strChars, isPrefixB])
    (by intro s; simp [mPlain, hdrC, strChars, isPrefixB])
  have hCSskip := skip_hdrC_of _ hm (strChars "Current State") (by decide)
    (by intro s; simp [mPlain, hdrC, strChars, isPrefixB])
    (by intro s; simp [mPlain, hdrC, strChars, isPrefixB])
  have hLFskip := skip_lfPre_of _ hm
    (by intro s; simp [mPlain, hdrC, strChars, isPrefixB])
    (by intro s; simp [mPlain, hdrC, strChars, isPrefixB])
  have hogskip := skip_nohash _ hm t.metadata.original_request (yamlStrOK_no_hash hog)
  have hssskip := skip_nohash _ hm t.session_story (sectionOK_no_hash hss)
  have hcsskip := skip_nohash _ hm t.current_state (sectionOK_no_hash hcs)
  have hlfskip := skip_nohash _ hm t.last_failure (sectionOK_no_hash hlf)
  have hdignh : ∀ c ∈ intToChars (t.metadata.current_iteration - 1), c ≠ '#' := by
    rw [intToChars_nonneg _ (by omega)]
    exact digits_no_hash _
  have hdigskip := skip_nohash _ hm (intToChars (t.metadata.current_iteration - 1)) hdignh
  have hpostskip := skip_nohash _ hm lfPost (by decide)
  have hfound := fun Q => scanMatch_found_hdr (strChars "What To Try Next") t.what_to_try Q
    (sectionOK_ne_nil hwt)
  unfold extract_section
  by_cases hdiff : diffIncluded t
  · have hdsOK : sectionOK t.diff_summary = true := by
      rcases hds with hds | hds
      · exfalso
        unfold diffIncluded at hdiff
        rw [hds] at hdiff
        simp at hdiff
      · exact hds
    have hdsskip := skip_nohash _ hm t.diff_summary (sectionOK_no_hash hdsOK)
    simp only [bodyChars, hdiff, if_true, List.append_assoc]
    rw [skip_sepC _ hm, hOGskip, hogskip, skip_sepC _ hm, hSSskip, hssskip, skip_sepC _ hm,
        hGSskip, hdsskip, skip_sepC _ hm, hCSskip, hcsskip, skip_sepC _ hm, hLFskip,
        hdigskip, hpostskip, hlfskip, skip_sepC _ hm, hfound]
    exact trim_capture_sep_hdr t.what_to_try hwt _ _
  · simp only [bodyChars, hdiff, if_false, Bool.false_eq_true, List.nil_append,
      List.append_assoc]
    rw [skip_sepC _ hm, hOGskip, hogskip, skip_sepC _ hm, hSSskip, hssskip, skip_sepC _ hm,
        hCSskip, hcsskip, skip_sepC _ hm, hLFskip, hdigskip, hpostskip, hlfskip,
        skip_sepC _ hm, hfound]
    exact trim_capture_sep_hdr t.what_to_try hwt _ _

theorem extract_in (t : TaskFile) (hwf : wellFormedTask t = true) :
    extract_section (strChars "Instructions") (bodyChars t) = t.instructions := by
  obtain ⟨_, _, hog, _, _, hci, _, _, hss, hcs, hlf, hwt, hin, hds⟩ := wellFormedTask_parts hwf
  have hm := mPlain_hdr_hash (strChars "Instructions")
  have hOGskip := skip_hdrC_of _ hm (strChars "Original Goal") (by decide)
    (by intro s; simp [mPlain, hdrC, strChars, isPrefixB])
    (by intro s; simp [mPlain, hdrC, strChars, isPrefixB])
  have hSSskip := skip_hdrC_of _ hm (strChars "Session Story") (by decide)
    (by intro s; simp [mPlain, hdrC, strChars, isPrefixB])
    (by intro s; simp [mPlain, hdrC, strChars, isPrefixB])
  have hGSskip := skip_hdrC_of _ hm (strChars "Git-Style Change Summary") (by decide)
    (by intro s; simp [mPlain, hdrC, strChars, isPrefixB])
    (by intro s; simp [mPlain, hdrC, strChars, isPrefixB])
  have hCSskip := skip_hdrC_of _ hm (strChars "Current State") (by decide)
    (by intro s; simp [mPlain, hdrC, strChars, isPrefixB])
    (by intro s; simp [mPlain, hdrC, strChars, isPrefixB])
  have hWTskip := skip_hdrC_of _ hm (strChars "What To Try Next") (by decide)
    (by intro s; simp [mPlain, hdrC, strChars, isPrefixB])
    (by intro s; simp [mPlain, hdrC, strChars, isPrefixB])
  have hLFskip := skip_lfPre_of _ hm
    (by intro s; simp [mPlain, hdrC, strChars, isPrefixB])
    (by intro s; simp [mPlain, hdrC, strChars, isPrefixB])
  have hogskip := skip_nohash _ hm t.metadata.original_request (yamlStrOK_no_hash hog)
  have hssskip := skip_nohash _ hm t.session_story (sectionOK_no_hash hss)
  have hcsskip := skip_nohash _ hm t.current_state (sectionOK_no_hash hcs)
  have hlfskip := skip_nohash _ hm t.last_failure (sectionOK_no_hash hlf)
  have hwtskip := skip_nohash _ hm t.what_to_try (sectionOK_no_hash hwt)
  have hdignh : ∀ c ∈ intToChars (t.metadata.current_iteration - 1), c ≠ '#' := by
    rw [intToChars_nonneg _ (by omega)]
    exact digits_no_hash _
  have hdigskip := skip_nohash _ hm (intToChars (t.metadata.current_iteration - 1)) hdignh
  have hpostskip := skip_nohash _ hm lfPost (by decide)
  have hfound := scanMatch_found_hdr_end (strChars "Instructions") t.instructions
    (sectionOK_ne_nil hin)
  unfold extract_section
  by_cases hdiff : diffIncluded t
  · have hdsOK : sectionOK t.diff_summary = true := by
      rcases hds with hds | hds
      · exfalso
        unfold diffIncluded at hdiff
        rw [hds] at hdiff
        simp at hdiff
      · exact hds
    have hdsskip := skip_nohash _ hm t.diff_summary (sectionOK_no_hash hdsOK)
    simp only [bodyChars, hdiff, if_true, List.append_assoc]
    rw [skip_sepC _ hm, hOGskip, hogskip, skip_sepC _ hm, hSSskip, hssskip, skip_sepC _ hm,
        hGSskip, hdsskip, skip_sepC _ hm, hCSskip, hcsskip, skip_sepC _ hm, hLFskip,
        hdigskip, hpostskip, hlfskip, skip_sepC _ hm, hWTskip, hwtskip, skip_sepC _ hm,
        hfound]
    exact trim_capture_end t.instructions hin
  · simp only [bodyChars, hdiff, if_false, Bool.false_eq_true, List.nil_append,
      List.append_assoc]
    rw [skip_sepC _ hm, hOGskip, hogskip, skip_sepC _ hm, hSSskip, hssskip, skip_sepC _ hm,
        hCSskip, hcsskip, skip_sepC _ hm, hLFskip, hdigskip, hpostskip, hlfskip,
        skip_sepC _ hm, hWTskip, hwtskip, skip_sepC _ hm, hfound]
    exact trim_capture_end t.instructions hin

/- ===== frontmatter round trip ===== -/
theorem yamlSafeChar_ne_nl {c : Char} (h : yamlSafeChar c = true) : c ≠ '\n' := by
  intro hc
  rw [hc] at h
  simp [yamlSafeChar] at h

theorem yamlSafeChar_ne_colon {c : Char} (h : yamlSafeChar c = true) : c ≠ ':' := by
  intro hc
  rw [hc] at h
  simp [yamlSafeChar] at h

theorem yamlStrOK_no_nl {s : Chars} (h : yamlStrOK s = true) : ∀ c ∈ s, c ≠ '\n' := by
  unfold yamlStrOK at h
  simp only [Bool.and_eq_true] at h
  have := h.1.1.2
  rw [List.all_eq_true] at this
  intro c hc
  exact yamlSafeChar_ne_nl (this c hc)

theorem isDigit_ne_nl {c : Char} (h : c.isDigit = true) : c ≠ '\n' := by
  intro hc
  rw [hc] at h
  simp [Char.isDigit] at h

theorem natToChars_no_nl (n : Nat) : ∀ c ∈ natToChars n, c ≠ '\n' :=
  fun c hc => isDigit_ne_nl (natToChars_digits n c hc)

/-- The first `": "` of a rendered YAML line sits right after its key. -/
theorem splitColonSpace_exact (k : Chars) (hk : ∀ c ∈ k, c ≠ ':') :
    ∀ v, splitColonSpace ((k ++ strChars ": ") ++ v) = some (k, v) := by
  induction k with
  | nil =>
    intro v
    show splitColonSpace (':' :: (' ' :: v)) = some ([], v)
    unfold splitColonSpace
    simp [isPrefixB]
  | cons a as ih =>
    intro v
    have ha : a ≠ ':' := hk a (List.mem_cons_self a as)
    show splitColonSpace (a :: ((as ++ strChars ": ") ++ v)) = some (a :: as, v)
    unfold splitColonSpace
    rw [if_neg (by simp [ha])]
    rw [ih (fun c hc => hk c (List.mem_cons_of_mem a hc)) v]

/-- An alphabetic character is never a decimal digit. -/
theorem not_digit_of_alpha {a : Char} (hal : a.isAlpha = true) (hd : a.isDigit = true) :
    False := by
  simp only [Char.isDigit, Char.isAlpha, Char.isUpper, Char.isLower, Bool.or_eq_true,
    Bool.and_eq_true, decide_eq_true_eq, ge_iff_le, UInt32.le_def, BitVec.le_def] at hd hal
  have e48 : (UInt32.toBitVec 48).toNat = 48 := rfl
  have e57 : (UInt32.toBitVec 57).toNat = 57 := rfl
  have e65 : (UInt32.toBitVec 65).toNat = 65 := rfl
  have e90 : (UInt32.toBitVec 90).toNat = 90 := rfl
  have e97 : (UInt32.toBitVec 97).toNat = 97 := rfl
  have e122 : (UInt32.toBitVec 122).toNat = 122 := rfl
  rw [e48, e57] at hd
  obtain ⟨hd1, hd2⟩ := hd
  rcases hal with ⟨h1, h2⟩ | ⟨h1, h2⟩
  · rw [e65] at h1; rw [e90] at h2; omega
  · rw [e97] at h1; rw [e122] at h2; omega

/-- A well-formed string value loads back as a string scalar. -/
theorem classify_str (v : Chars) (hv : yamlStrOK v = true) :
    classifyYamlVal v = YamlVal.strVal v := by
  unfold classifyYamlVal
  rw [if_neg]
  intro ⟨hne, hall⟩
  unfold yamlStrOK at hv
  simp only [Bool.and_eq_true] at hv
  have hhead := hv.1.1.1.2
  rw [List.all_eq_true] at hall
  cases v with
  | nil => exact hne rfl
  | cons a as =>
    simp only [List.head?_cons] at hhead
    have hd : a.isDigit = true := by simpa using hall a (List.mem_cons_self a as)
    have hal : a.isAlpha = true := by simpa using hhead
    exact not_digit_of_alpha hal hd

/-- A rendered nonnegative int loads back as the same int. -/
theorem classify_int (i : Int) (hi : 0 ≤ i) :
    classifyYamlVal (intToChars i) = YamlVal.intVal i := by
  rw [intToChars_nonneg i hi]
  unfold classifyYamlVal
  rw [if_pos]
  · rw [charsToNat_natToChars]
    congr 1
    omega
  · constructor
    · exact natToChars_ne_nil i.toNat
    · rw [List.all_eq_true]
      intro c hc
      simpa using natToChars_digits i.toNat c hc

theorem intToChars_no_nl (i : Int) (h : 0 ≤ i) : ∀ c ∈ intToChars i, c ≠ '\n' := by
  rw [intToChars_nonneg i h]
  exact natToChars_no_nl i.toNat

/-- The line conditions of splitAtMarker_lines, for a `key: value` line whose
key facts are concrete. -/
theorem lineOK (k v : Chars) (hk1 : k ≠ []) (hk2 : ∀ c ∈ k, c ≠ '\n')
    (hk3 : ∀ c, k.head? = some c → c ≠ '-') (hv : ∀ c ∈ v, c ≠ '\n') :
    (k ++ v) ≠ [] ∧ (∀ c ∈ k ++ v, c ≠ '\n') ∧
      (∀ c, (k ++ v).head? = some c → c ≠ '-') := by
  refine ⟨?_, ?_, ?_⟩
  · intro h
    exact hk1 (List.append_eq_nil.mp h).1
  · intro c hc
    rcases List.mem_append.mp hc with h | h
    · exact hk2 c h
    · exact hv c h
  · intro c hc
    cases k with
    | nil => exact absurd rfl hk1
    | cons a as =>
      simp only [List.cons_append, List.head?_cons] at hc
      injection hc with hc
      exact hc ▸ hk3 a rfl

/-- Every dumped YAML line is nonempty, newline-free and does not start with
a dash. -/
theorem yamlLines_cond (t : TaskFile) (hwf : wellFormedTask t = true) :
    ∀ L ∈ yamlLines t.metadata, L ≠ [] ∧ (∀ c ∈ L, c ≠ '\n') ∧
      (∀ c, L.head? = some c → c ≠ '-') := by
  obtain ⟨hid, hcr, hog, hvc, hwd, hci, hmi, hts, _, _, _, _, _, _⟩ := wellFormedTask_parts hwf
  intro L hL
  simp only [yamlLines, List.mem_cons, List.not_mem_nil, or_false] at hL
  rcases hL with h | h | h | h | h | h | h | h <;> rw [h]
  · exact lineOK _ _ (by decide) (by decide) (by decide) (yamlStrOK_no_nl hcr)
  · exact lineOK _ _ (by decide) (by decide) (by decide)
      (intToChars_no_nl _ (by omega))
  · exact lineOK _ _ (by decide) (by decide) (by decide) (yamlStrOK_no_nl hid)
  · exact lineOK _ _ (by decide) (by decide) (by decide) (intToChars_no_nl _ hmi)
  · exact lineOK _ _ (by decide) (by decide) (by decide) (yamlStrOK_no_nl hog)
  · exact lineOK _ _ (by decide) (by decide) (by decide) (intToChars_no_nl _ hts)
  · exact lineOK _ _ (by decide) (by decide) (by decide) (yamlStrOK_no_nl hvc)
  · exact lineOK _ _ (by decide) (by decide) (by decide) (yamlStrOK_no_nl hwd)

/-- The anchored frontmatter regex splits a rendered document into its dumped
YAML lines and the section body. -/
theorem splitFrontmatter_render (t : TaskFile) (hwf : wellFormedTask t = true) :
    splitFrontmatter (render_task_file t) =
      some (List.intercalate ['\n'] (yamlLines t.metadata), bodyChars t) := by
  rw [render_task_file_eq]
  have hsh : (strChars "---\n" ++ yamlDumpFM t.metadata ++ strChars "---") ++ bodyChars t
      = strChars "---\n" ++
        (List.intercalate ['\n'] (yamlLines t.metadata) ++ (fmMarker ++ bodyChars t)) := by
    simp [yamlDumpFM, fmMarker, strChars, List.append_assoc]
  rw [hsh]
  unfold splitFrontmatter
  rw [isPrefixB_append_self]
  simp only [if_true]
  have hd4 : (strChars "---\n" ++
      (List.intercalate ['\n'] (yamlLines t.metadata) ++ (fmMarker ++ bodyChars t))).drop 4
      = List.intercalate ['\n'] (yamlLines t.metadata) ++ (fmMarker ++ bodyChars t) := by
    rw [show (4:Nat) = (strChars "---\n").length from rfl]
    exact List.drop_left _ _
  rw [hd4]
  apply splitAtMarker_lines
  · simp [yamlLines]
  · exact yamlLines_cond t hwf

/- ===== loading the dumped frontmatter ===== -/
theorem parseYamlLine_str (k v : Chars) (hk : ∀ c ∈ k, c ≠ ':') (hv : yamlStrOK v = true) :
    parseYamlLine ((k ++ strChars ": ") ++ v) = some (k, YamlVal.strVal v) := by
  unfold parseYamlLine
  rw [splitColonSpace_exact k hk v]
  simp [classify_str v hv]

theorem parseYamlLine_int (k : Chars) (i : Int) (hk : ∀ c ∈ k, c ≠ ':') (hi : 0 ≤ i) :
    parseYamlLine ((k ++ strChars ": ") ++ intToChars i) = some (k, YamlVal.intVal i) := by
  unfold parseYamlLine
  rw [splitColonSpace_exact k hk (intToChars i)]
  simp [classify_int i hi]

/-- Loading the dumped YAML lines gives back the frontmatter mapping. -/
theorem yaml_load_render (t : TaskFile) (hwf : wellFormedTask t = true) :
    yaml_safe_load (List.intercalate ['\n'] (yamlLines t.metadata)) =
      some (fmDict t.metadata) := by
  obtain ⟨hid, hcr, hog, hvc, hwd, hci, hmi, hts, _, _, _, _, _, _⟩ := wellFormedTask_parts hwf
  have hcond := yamlLines_cond t hwf
  unfold yaml_safe_load
  rw [List.splitOn_intercalate (yamlLines t.metadata) '\n'
    (fun L hL hmem => ((hcond L hL).2.1 '\n' hmem) rfl)
    (by simp [yamlLines])]
  simp only [yamlLines, List.mapM_cons, List.mapM_nil]
  rw [show strChars "created: " = strChars "created" ++ strChars ": " from by decide,
      show strChars "current_iteration: " =
        strChars "current_iteration" ++ strChars ": " from by decide,
      show strChars "id: " = strChars "id" ++ strChars ": " from by decide,
      show strChars "max_iterations: " = strChars "max_iterations" ++ strChars ": " from by decide,
      show strChars "original_request: " =
        strChars "original_request" ++ strChars ": " from by decide,
      show strChars "timeout_seconds: " =
        strChars "timeout_seconds" ++ strChars ": " from by decide,
      show strChars "verification_command: " =
        strChars "verification_command" ++ strChars ": " from by decide,
      show strChars "working_directory: " =
        strChars "working_directory" ++ strChars ": " from by decide]
  rw [parseYamlLine_str _ _ (by decide) hcr,
      parseYamlLine_int _ _ (by decide) (by omega),
      parseYamlLine_str _ _ (by decide) hid,
      parseYamlLine_int _ _ (by decide) hmi,
      parseYamlLine_str _ _ (by decide) hog,
      parseYamlLine_int _ _ (by decide) hts,
      parseYamlLine_str _ _ (by decide) hvc,
      parseYamlLine_str _ _ (by decide) hwd]
  simp [fmDict]

/-- Parsing a rendered well-formed task recovers the normalized task. -/
theorem parse_render (t : TaskFile) (hwf : wellFormedTask t = true) :
    parse_task_file (render_task_file t) = some (normalizeTask t) := by
  obtain ⟨_, _, _, _, _, _, _, _, _, _, hlf, _, _, _⟩ := wellFormedTask_parts hwf
  unfold parse_task_file
  rw [splitFrontmatter_render t hwf]
  dsimp only []
  rw [yaml_load_render t hwf]
  dsimp only []
  rw [extract_ss t hwf, extract_gs t hwf, extract_cs t hwf, extract_lf t hwf,
      extract_wt t hwf, extract_in t hwf]
  have hne : t.last_failure.isEmpty = false := by
    cases hfoo : t.last_failure with
    | nil => exact absurd hfoo (sectionOK_ne_nil hlf)
    | cons a as => simp
  simp [normalizeTask, fmGetStr, fmGetInt, fmDict, List.lookup, strChars, hne]

/-- Rendering is insensitive to the normalization a round trip applies:
`max_budget_usd` is never dumped, and a suppressed diff renders identically
whether it is stored or already empty. -/
theorem diffIncluded_normalize (t : TaskFile) :
    diffIncluded (normalizeTask t) = diffIncluded t := by
  by_cases hdiff : diffIncluded t
  · have h2 : (normalizeTask t).diff_summary = t.diff_summary := by
      show (if diffIncluded t then t.diff_summary else []) = t.diff_summary
      rw [if_pos hdiff]
    unfold diffIncluded
    rw [h2]
  · rw [Bool.not_eq_true] at hdiff
    have h2 : (normalizeTask t).diff_summary = ([] : Chars) := by
      show (if diffIncluded t then t.diff_summary else []) = []
      rw [hdiff]
      simp
    rw [hdiff]
    unfold diffIncluded
    rw [h2]
    simp

theorem render_normalize (t : TaskFile) :
    render_task_file (normalizeTask t) = render_task_file t := by
  by_cases hdiff : diffIncluded t
  · have h1 : diffIncluded (normalizeTask t) = true := by
      rw [diffIncluded_normalize]; exact hdiff
    have h2 : (normalizeTask t).diff_summary = t.diff_summary := by
      show (if diffIncluded t then t.diff_summary else []) = t.diff_summary
      rw [if_pos hdiff]
    unfold render_task_file
    rw [h1, hdiff, h2]
    rfl
  · rw [Bool.not_eq_true] at hdiff
    have h1 : diffIncluded (normalizeTask t) = false := by
      rw [diffIncluded_normalize]; exact hdiff
    unfold render_task_file
    rw [h1, hdiff]
    rfl

/-- C8: task-document serialization is idempotent under a render/parse round
trip: for every well-formed task document, rendering the parse of the rendered
document yields exactly the rendered document. -/
theorem c8_roundtrip (t : TaskFile) (hwf : wellFormedTask t = true) :
    (parse_task_file (render_task_file t)).map render_task_file =
      some (render_task_file t) := by
  rw [parse_render t hwf]
  show some (render_task_file (normalizeTask t)) = some (render_task_file t)
  rw [render_normalize t]

theorem c8_witness :
    wellFormedTask exTask = true ∧
      (parse_task_file (render_task_file exTask)).map render_task_file =
        some (render_task_file exTask) :=
  ⟨by decide, c8_roundtrip exTask (by decide)⟩
